/-
Verification of the remeslnici-pwa record store: calculation module
(src/lib/calculations.ts), work-entry service (src/lib/services/
workEntryService.ts) and backup service (src/lib/services/backupService.ts):
export, validation and atomic import.

Numbers are modelled as rationals (ℚ); JavaScript NaN / Infinity appear
explicitly in the `JSNum` type where the code tests for them.  JavaScript
`Date` parsing (`new Date(string)`) and serialization (`toISOString` under
`JSON.stringify`) are environment primitives, modelled as parameters
`parse : String → Option Int` (epoch milliseconds, `none` = Invalid Date)
and `format : Int → String`.  Errors thrown by the TypeScript code are
modelled as `Except` values carrying the data interpolated into the thrown
message.
-/
import Mathlib

set_option linter.unusedVariables false

namespace Remeslnici

/-- JavaScript `Math.round`: round half toward +∞, i.e. `⌊x + 1/2⌋`
(written out as a numerator/denominator division so that it evaluates by
kernel reduction; `jsRound_eq_floor` below identifies it with `⌊x + 1/2⌋`). -/
def jsRound (q : ℚ) : ℤ := (q + 1/2).num / (q + 1/2).den

/-- `Math.round(q * 100) / 100` — the 2-decimal rounding used throughout. -/
def round2 (q : ℚ) : ℚ := (jsRound (q * 100) : ℚ) / 100

/-- A JavaScript number: finite (exact value), NaN, or a signed infinity. -/
inductive JSNum where
  | finite (q : ℚ)
  | nan
  | posInf
  | negInf
  deriving DecidableEq, Repr

/-- A JavaScript/JSON value as handled by the backup service.  `date ms`
is a `Date` object holding epoch milliseconds (`none` = Invalid Date). -/
inductive JSValue where
  | null
  | bool (b : Bool)
  | num (n : JSNum)
  | str (s : String)
  | date (ms : Option Int)
  | arr (xs : List JSValue)
  | obj (fields : List (String × JSValue))
  deriving Repr

namespace JSValue

/-- Property access `o.k`: first binding wins; `none` models `undefined`
(also the result of property access on non-objects). -/
def getField : JSValue → String → Option JSValue
  | .obj fields, k => fields.lookup k
  | _, _ => none

/-- `{ ...o, k: v }` field-list semantics: replace the first binding of `k`
in place, or append if absent (JavaScript key ordering). -/
def setFields (k : String) (v : JSValue) : List (String × JSValue) → List (String × JSValue)
  | [] => [(k, v)]
  | (k', v') :: rest => if k' = k then (k, v) :: rest else (k', v') :: setFields k v rest

/-- `{ ...o, k: v }`; on a non-object this leaves the value unchanged
(that branch is never reached by the modelled code). -/
def setField : JSValue → String → JSValue → JSValue
  | .obj fields, k, v => .obj (setFields k v fields)
  | o, _, _ => o

/-- `typeof x === "object" && x !== null` (arrays and `Date`s included). -/
def isObjectLike : JSValue → Bool
  | .obj _ => true
  | .arr _ => true
  | .date _ => true
  | _ => false

/-- The key list of an object (empty for non-objects). -/
def keys : JSValue → List String
  | .obj fields => fields.map Prod.fst
  | _ => []

end JSValue

/-- The cast `r.x as string` on a field that validation has proved to be a
string; the default is never reached on the paths where it is used. -/
def strField (r : JSValue) (k : String) : String :=
  match r.getField k with
  | some (.str s) => s
  | _ => ""

/-- The cast `r.x as number` on a field that validation has proved to be a
finite number; the default is never reached on the paths where it is used. -/
def numField (r : JSValue) (k : String) : ℚ :=
  match r.getField k with
  | some (.num (.finite q)) => q
  | _ => 0

-- ---------------------------------------------------------------------------
-- Calculation module (src/lib/calculations.ts)
-- ---------------------------------------------------------------------------

/-- The errors thrown by the calculation functions, carrying the values
interpolated into the thrown `Error` messages. -/
inductive CalcError where
  | invalidStartTime (s : String)
  | invalidEndTime (s : String)
  | endBeforeStart (startTime endTime : String)
  | negativeHours (h : ℚ)
  | negativeHourlyRate (r : ℚ)
  | negativeKm (km : ℚ)
  | negativeKmRate (r : ℚ)
  | negativeLaborTotal (l : ℚ)
  | negativeKmTotal (k : ℚ)
  | negativeExpensesTotal (e : ℚ)
  deriving DecidableEq, Repr

/-- `calculateDurationInHours(startTime, endTime)`: parse both strings,
fail on an Invalid Date, fail if `end` is before `start`, otherwise return
the difference in hours rounded to 2 decimals. -/
def calculateDurationInHours (parse : String → Option Int)
    (startTime endTime : String) : Except CalcError ℚ :=
  match parse startTime with
  | none => .error (.invalidStartTime startTime)
  | some startMs =>
    match parse endTime with
    | none => .error (.invalidEndTime endTime)
    | some endMs =>
      let diffMs : ℤ := endMs - startMs
      if diffMs < 0 then .error (.endBeforeStart startTime endTime)
      else .ok (round2 ((diffMs : ℚ) / (1000 * 60 * 60)))

/-- `calculateLaborTotal(hours, hourlyRate) = round2(hours * hourlyRate)`,
rejecting negative operands. -/
def calculateLaborTotal (hours hourlyRate : ℚ) : Except CalcError ℚ :=
  if hours < 0 then .error (.negativeHours hours)
  else if hourlyRate < 0 then .error (.negativeHourlyRate hourlyRate)
  else .ok (round2 (hours * hourlyRate))

/-- `calculateKmTotal(km, kmRate) = round2(km * kmRate)`, rejecting
negative operands. -/
def calculateKmTotal (km kmRate : ℚ) : Except CalcError ℚ :=
  if km < 0 then .error (.negativeKm km)
  else if kmRate < 0 then .error (.negativeKmRate kmRate)
  else .ok (round2 (km * kmRate))

/-- `calculateGrandTotal(laborTotal, kmTotal, expensesTotal) =
round2(laborTotal + kmTotal + expensesTotal)`, rejecting negative
components. -/
def calculateGrandTotal (laborTotal kmTotal expensesTotal : ℚ) : Except CalcError ℚ :=
  if laborTotal < 0 then .error (.negativeLaborTotal laborTotal)
  else if kmTotal < 0 then .error (.negativeKmTotal kmTotal)
  else if expensesTotal < 0 then .error (.negativeExpensesTotal expensesTotal)
  else .ok (round2 (laborTotal + kmTotal + expensesTotal))

-- ---------------------------------------------------------------------------
-- Work-entry service (src/lib/services/workEntryService.ts)
-- ---------------------------------------------------------------------------

/-- `WorkEntryInput` from src/types/index.ts. -/
structure WorkEntryInput where
  date : String
  startTime : String
  endTime : String
  jobId : String
  hourlyRateUsed : ℚ
  kilometers : ℚ
  kmRateUsed : ℚ
  deriving DecidableEq, Repr

/-- `ExpenseInput` from src/types/index.ts. -/
structure ExpenseInput where
  amount : ℚ
  category : String
  receiptImageUrl : String
  deriving DecidableEq, Repr

/-- `WorkEntry` from src/types/index.ts (`createdAt : Date` as epoch ms). -/
structure WorkEntry where
  id : String
  date : String
  startTime : String
  endTime : String
  jobId : String
  hourlyRateUsed : ℚ
  kilometers : ℚ
  kmRateUsed : ℚ
  laborTotal : ℚ
  kmTotal : ℚ
  expensesTotal : ℚ
  grandTotal : ℚ
  createdAt : Int
  deriving DecidableEq, Repr

/-- `Expense` from src/types/index.ts (`createdAt : Date` as epoch ms). -/
structure Expense where
  id : String
  workEntryId : String
  amount : ℚ
  category : String
  receiptImageUrl : String
  createdAt : Int
  deriving DecidableEq, Repr

/-- The `workEntries` and `expenses` object stores touched by the service
(keyed by `id`). -/
structure TypedStore where
  workEntries : List WorkEntry
  expenses : List Expense
  deriving DecidableEq, Repr

/-- IndexedDB `put` on the `workEntries` store: overwrite the record with
the same key, or insert. -/
def putWorkEntry (e : WorkEntry) : List WorkEntry → List WorkEntry
  | [] => [e]
  | x :: xs => if x.id = e.id then e :: xs else x :: putWorkEntry e xs

/-- IndexedDB `put` on the `expenses` store. -/
def putExpense (e : Expense) : List Expense → List Expense
  | [] => [e]
  | x :: xs => if x.id = e.id then e :: xs else x :: putExpense e xs

/-- Errors thrown by the work-entry service: a propagated calculation
error, or the `WorkEntry not found` error of `updateWorkEntry`. -/
inductive ServiceError where
  | calcFailed (e : CalcError)
  | notFound (id : String)
  deriving DecidableEq, Repr

/-- `const expensesTotal = expenses.reduce((sum, e) => sum + e.amount, 0)`
— note: no rounding is applied here. -/
def inputExpensesTotal (expenses : List ExpenseInput) : ℚ :=
  expenses.foldl (fun sum e => sum + e.amount) 0

/-- The WorkEntry object literal built by `createWorkEntry` /
`updateWorkEntry` from the input and the computed totals. -/
def buildEntry (id : String) (input : WorkEntryInput)
    (laborTotal kmTotal expensesTotal grandTotal : ℚ) (createdAt : Int) :
    WorkEntry :=
  { id := id, date := input.date, startTime := input.startTime,
    endTime := input.endTime, jobId := input.jobId,
    hourlyRateUsed := input.hourlyRateUsed, kilometers := input.kilometers,
    kmRateUsed := input.kmRateUsed, laborTotal := laborTotal,
    kmTotal := kmTotal, expensesTotal := expensesTotal,
    grandTotal := grandTotal, createdAt := createdAt }

/-- The Expense records built from the expense inputs (`expenseIds` stands
for the per-expense `crypto.randomUUID()` calls). -/
def buildExpenseRecords (expenses : List ExpenseInput) (weId : String)
    (expenseIds : List String) (now : Int) : List Expense :=
  (expenses.zip expenseIds).map fun pr =>
    { id := pr.2, workEntryId := weId, amount := pr.1.amount,
      category := pr.1.category, receiptImageUrl := pr.1.receiptImageUrl,
      createdAt := now }

/-- `createWorkEntry({input, expenses})`: compute totals from the source
data (`expensesTotal` is the plain `reduce` sum, with no rounding), build
the entry and expense records, and persist them in one transaction.
`entryId`, `expenseIds` and `now` stand for the `crypto.randomUUID()` and
`new Date()` calls. -/
def createWorkEntry (parse : String → Option Int) (input : WorkEntryInput)
    (expenses : List ExpenseInput) (entryId : String) (expenseIds : List String)
    (now : Int) (store : TypedStore) :
    Except ServiceError (WorkEntry × List Expense × TypedStore) :=
  match calculateDurationInHours parse input.startTime input.endTime with
  | .error e => .error (.calcFailed e)
  | .ok hours =>
  match calculateLaborTotal hours input.hourlyRateUsed with
  | .error e => .error (.calcFailed e)
  | .ok laborTotal =>
  match calculateKmTotal input.kilometers input.kmRateUsed with
  | .error e => .error (.calcFailed e)
  | .ok kmTotal =>
  match calculateGrandTotal laborTotal kmTotal (inputExpensesTotal expenses) with
  | .error e => .error (.calcFailed e)
  | .ok grandTotal =>
  .ok (buildEntry entryId input laborTotal kmTotal (inputExpensesTotal expenses) grandTotal now,
    buildExpenseRecords expenses entryId expenseIds now,
    { workEntries :=
        putWorkEntry
          (buildEntry entryId input laborTotal kmTotal (inputExpensesTotal expenses) grandTotal now)
          store.workEntries,
      expenses :=
        (buildExpenseRecords expenses entryId expenseIds now).foldl
          (fun l e => putExpense e l) store.expenses })

/-- `updateWorkEntry({id, input, expenses})`: fail if the entry is absent,
recompute totals exactly as `createWorkEntry` (again an unrounded
`expensesTotal` sum), then in one transaction delete the old expenses of
the entry, insert the new ones, and overwrite the entry preserving its
original `createdAt`. -/
def updateWorkEntry (parse : String → Option Int) (id : String)
    (input : WorkEntryInput) (expenses : List ExpenseInput)
    (expenseIds : List String) (now : Int) (store : TypedStore) :
    Except ServiceError (WorkEntry × List Expense × TypedStore) :=
  match store.workEntries.find? (fun x => x.id == id) with
  | none => .error (.notFound id)
  | some existing =>
  match calculateDurationInHours parse input.startTime input.endTime with
  | .error e => .error (.calcFailed e)
  | .ok hours =>
  match calculateLaborTotal hours input.hourlyRateUsed with
  | .error e => .error (.calcFailed e)
  | .ok laborTotal =>
  match calculateKmTotal input.kilometers input.kmRateUsed with
  | .error e => .error (.calcFailed e)
  | .ok kmTotal =>
  match calculateGrandTotal laborTotal kmTotal (inputExpensesTotal expenses) with
  | .error e => .error (.calcFailed e)
  | .ok grandTotal =>
  .ok (buildEntry id input laborTotal kmTotal (inputExpensesTotal expenses) grandTotal existing.createdAt,
    buildExpenseRecords expenses id expenseIds now,
    { workEntries :=
        putWorkEntry
          (buildEntry id input laborTotal kmTotal (inputExpensesTotal expenses) grandTotal existing.createdAt)
          store.workEntries,
      expenses :=
        (buildExpenseRecords expenses id expenseIds now).foldl
          (fun l e => putExpense e l)
          (store.expenses.filter (fun e => e.workEntryId != id)) })

-- ---------------------------------------------------------------------------
-- Backup service (src/lib/services/backupService.ts) — validation helpers
-- ---------------------------------------------------------------------------

/-- The label interpolated into a validation error message: a top-level
field name, or `coll[i].field`. -/
inductive BLabel where
  | top (field : String)
  | fld (coll : String) (i : Nat) (field : String)
  deriving DecidableEq, Repr

/-- The errors thrown by `importFullBackup` and its helpers, carrying the
data interpolated into the thrown messages. -/
inductive ImportError where
  | notAnObject
  | badVersion (found : Option JSValue)
  | expectedString (l : BLabel) (found : Option JSValue)
  | emptyDateString (l : BLabel)
  | invalidDateString (l : BLabel) (s : String)
  | expectedNumber (l : BLabel) (found : Option JSValue)
  | nanNumber (l : BLabel)
  | infiniteNumber (l : BLabel)
  | expectedBoolean (l : BLabel) (found : Option JSValue)
  | notAnArray (field : String)
  | recordNotObject (coll : String) (i : Nat)
  | duplicateId (coll : String) (id : String)
  | danglingJobId (i : Nat) (jobId : String)
  | danglingWorkEntryId (i : Nat) (workEntryId : String)
  | totalsMismatch (i : Nat) (field : String) (stored computed : ℚ)
  | calcFailed (e : CalcError)
  deriving Repr

/-- `assertFiniteNumber`: `typeof` check, then NaN, then Infinity. -/
def assertFiniteNumber (v : Option JSValue) (l : BLabel) : Except ImportError Unit :=
  match v with
  | some (.num (.finite _)) => .ok ()
  | some (.num .nan) => .error (.nanNumber l)
  | some (.num .posInf) => .error (.infiniteNumber l)
  | some (.num .negInf) => .error (.infiniteNumber l)
  | found => .error (.expectedNumber l found)

/-- `assertValidDateString`: `typeof` check, empty-string check, then
`new Date(value)` must not be an Invalid Date. -/
def assertValidDateString (parse : String → Option Int) (v : Option JSValue)
    (l : BLabel) : Except ImportError Unit :=
  match v with
  | some (.str s) =>
    if s = "" then .error (.emptyDateString l)
    else
      match parse s with
      | none => .error (.invalidDateString l s)
      | some _ => .ok ()
  | found => .error (.expectedString l found)

/-- `assertNonEmptyString`: despite its name and doc comment, the
TypeScript body only checks `typeof value !== "string"` — an empty string
is accepted. -/
def assertNonEmptyString (v : Option JSValue) (l : BLabel) : Except ImportError Unit :=
  match v with
  | some (.str _) => .ok ()
  | found => .error (.expectedString l found)

/-- The inline `typeof r.active !== "boolean"` check of `validateJob`. -/
def checkBoolean (v : Option JSValue) (l : BLabel) : Except ImportError Unit :=
  match v with
  | some (.bool _) => .ok ()
  | found => .error (.expectedBoolean l found)

/-- The `obj.version !== 1` check: strict equality against the number 1,
any other value (including absent) is a hard failure naming it. -/
def checkVersion (v : Option JSValue) : Except ImportError Unit :=
  match v with
  | some (.num (.finite q)) =>
    if q = 1 then .ok () else .error (.badVersion (some (.num (.finite q))))
  | found => .error (.badVersion found)

/-- The `Array.isArray` checks of `validateBackup`. -/
def checkIsArray (v : Option JSValue) (field : String) : Except ImportError Unit :=
  match v with
  | some (.arr _) => .ok ()
  | _ => .error (.notAnArray field)

-- ---------------------------------------------------------------------------
-- Backup service — per-record validation
-- ---------------------------------------------------------------------------

/-- Sequencing of `assert*` calls: the first thrown error propagates. -/
def andThen (a b : Except ImportError Unit) : Except ImportError Unit :=
  match a with
  | .error e => .error e
  | .ok () => b

/-- `validateJob(data, index)`. -/
def validateJob (parse : String → Option Int) (data : JSValue) (index : Nat) :
    Except ImportError Unit :=
  if data.isObjectLike then
    andThen (assertNonEmptyString (data.getField "id") (.fld "jobs" index "id")) <|
    andThen (assertNonEmptyString (data.getField "name") (.fld "jobs" index "name")) <|
    andThen (assertNonEmptyString (data.getField "client") (.fld "jobs" index "client")) <|
    andThen (assertFiniteNumber (data.getField "defaultHourlyRate") (.fld "jobs" index "defaultHourlyRate")) <|
    andThen (checkBoolean (data.getField "active") (.fld "jobs" index "active")) <|
    assertValidDateString parse (data.getField "createdAt") (.fld "jobs" index "createdAt")
  else .error (.recordNotObject "jobs" index)

/-- `validateWorkEntry(data, index)`. -/
def validateWorkEntry (parse : String → Option Int) (data : JSValue) (index : Nat) :
    Except ImportError Unit :=
  if data.isObjectLike then
    andThen (assertNonEmptyString (data.getField "id") (.fld "workEntries" index "id")) <|
    andThen (assertNonEmptyString (data.getField "jobId") (.fld "workEntries" index "jobId")) <|
    andThen (assertNonEmptyString (data.getField "date") (.fld "workEntries" index "date")) <|
    andThen (assertValidDateString parse (data.getField "startTime") (.fld "workEntries" index "startTime")) <|
    andThen (assertValidDateString parse (data.getField "endTime") (.fld "workEntries" index "endTime")) <|
    andThen (assertValidDateString parse (data.getField "createdAt") (.fld "workEntries" index "createdAt")) <|
    andThen (assertFiniteNumber (data.getField "hourlyRateUsed") (.fld "workEntries" index "hourlyRateUsed")) <|
    andThen (assertFiniteNumber (data.getField "kilometers") (.fld "workEntries" index "kilometers")) <|
    andThen (assertFiniteNumber (data.getField "kmRateUsed") (.fld "workEntries" index "kmRateUsed")) <|
    andThen (assertFiniteNumber (data.getField "laborTotal") (.fld "workEntries" index "laborTotal")) <|
    andThen (assertFiniteNumber (data.getField "kmTotal") (.fld "workEntries" index "kmTotal")) <|
    andThen (assertFiniteNumber (data.getField "expensesTotal") (.fld "workEntries" index "expensesTotal")) <|
    assertFiniteNumber (data.getField "grandTotal") (.fld "workEntries" index "grandTotal")
  else .error (.recordNotObject "workEntries" index)

/-- `validateExpense(data, index)` (note: `receiptImageUrl` is not
validated). -/
def validateExpense (parse : String → Option Int) (data : JSValue) (index : Nat) :
    Except ImportError Unit :=
  if data.isObjectLike then
    andThen (assertNonEmptyString (data.getField "id") (.fld "expenses" index "id")) <|
    andThen (assertNonEmptyString (data.getField "workEntryId") (.fld "expenses" index "workEntryId")) <|
    andThen (assertNonEmptyString (data.getField "category") (.fld "expenses" index "category")) <|
    andThen (assertFiniteNumber (data.getField "amount") (.fld "expenses" index "amount")) <|
    assertValidDateString parse (data.getField "createdAt") (.fld "expenses" index "createdAt")
  else .error (.recordNotObject "expenses" index)

/-- An indexed `for` loop over the records of one collection, failing fast
at the first record whose validation throws. -/
def validateList (f : JSValue → Nat → Except ImportError Unit) :
    List JSValue → Nat → Except ImportError Unit
  | [], _ => .ok ()
  | x :: xs, i =>
    match f x i with
    | .error e => .error e
    | .ok () => validateList f xs (i + 1)

/-- The array stored under key `k` of a document that validation has
proved to be an array; the default is never reached where it is used. -/
def arrField (doc : JSValue) (k : String) : List JSValue :=
  match doc.getField k with
  | some (.arr xs) => xs
  | _ => []

/-- `validateBackup(data)`: top-level shape, `version === 1`,
`exportedAt`, the three arrays, then every record of each collection. -/
def validateBackup (parse : String → Option Int) (data : JSValue) :
    Except ImportError Unit :=
  if data.isObjectLike then
    andThen (checkVersion (data.getField "version")) <|
    andThen (assertValidDateString parse (data.getField "exportedAt") (.top "exportedAt")) <|
    andThen (checkIsArray (data.getField "jobs") "jobs") <|
    andThen (checkIsArray (data.getField "workEntries") "workEntries") <|
    andThen (checkIsArray (data.getField "expenses") "expenses") <|
    andThen (validateList (validateJob parse) (arrField data "jobs") 0) <|
    andThen (validateList (validateWorkEntry parse) (arrField data "workEntries") 0) <|
    validateList (validateExpense parse) (arrField data "expenses") 0
  else .error .notAnObject

-- ---------------------------------------------------------------------------
-- Backup service — duplicate ids, referential integrity, totals
-- ---------------------------------------------------------------------------

/-- `assertNoDuplicateIds(ids, storeName)`: a `Set`-based scan failing at
the first repeated id. -/
def assertNoDuplicateIds (storeName : String) : List String → List String → Except ImportError Unit
  | _, [] => .ok ()
  | seen, id :: rest =>
    if id ∈ seen then .error (.duplicateId storeName id)
    else assertNoDuplicateIds storeName (id :: seen) rest

/-- `assertReferentialIntegrity(backup)`: every `workEntry.jobId` is the
id of an in-document Job; every `expense.workEntryId` is the id of an
in-document WorkEntry. -/
def assertReferentialIntegrity (doc : JSValue) : Except ImportError Unit :=
  andThen
    (validateList (fun r i =>
        if strField r "jobId" ∈ (arrField doc "jobs").map (strField · "id") then .ok ()
        else .error (.danglingJobId i (strField r "jobId")))
      (arrField doc "workEntries") 0) <|
  validateList (fun r i =>
      if strField r "workEntryId" ∈ (arrField doc "workEntries").map (strField · "id") then .ok ()
      else .error (.danglingWorkEntryId i (strField r "workEntryId")))
    (arrField doc "expenses") 0

/-- The expense-sum map of `assertTotalsConsistency`, read back for one
entry id: `expenseSumByEntry.get(weId) ?? 0`. -/
def expenseSum (expenses : List JSValue) (weId : String) : ℚ :=
  expenses.foldl
    (fun acc e => if strField e "workEntryId" = weId then acc + numField e "amount" else acc) 0

/-- The body of the `assertTotalsConsistency` loop for `workEntries[i]`:
recompute the four totals through the calculation module and compare each,
rounded to 2 decimals, against the stored value. -/
def checkEntryTotals (parse : String → Option Int) (expenses : List JSValue)
    (r : JSValue) (i : Nat) : Except ImportError Unit :=
  match calculateDurationInHours parse (strField r "startTime") (strField r "endTime") with
  | .error e => .error (.calcFailed e)
  | .ok duration =>
  match calculateLaborTotal duration (numField r "hourlyRateUsed") with
  | .error e => .error (.calcFailed e)
  | .ok expectedLabor =>
  match calculateKmTotal (numField r "kilometers") (numField r "kmRateUsed") with
  | .error e => .error (.calcFailed e)
  | .ok expectedKm =>
  match calculateGrandTotal expectedLabor expectedKm
      (round2 (expenseSum expenses (strField r "id"))) with
  | .error e => .error (.calcFailed e)
  | .ok expectedGrand =>
  if round2 (numField r "laborTotal") ≠ round2 expectedLabor then
    .error (.totalsMismatch i "laborTotal" (numField r "laborTotal") expectedLabor)
  else if round2 (numField r "kmTotal") ≠ round2 expectedKm then
    .error (.totalsMismatch i "kmTotal" (numField r "kmTotal") expectedKm)
  else if round2 (numField r "expensesTotal") ≠
      round2 (round2 (expenseSum expenses (strField r "id"))) then
    .error (.totalsMismatch i "expensesTotal" (numField r "expensesTotal")
      (round2 (expenseSum expenses (strField r "id"))))
  else if round2 (numField r "grandTotal") ≠ round2 expectedGrand then
    .error (.totalsMismatch i "grandTotal" (numField r "grandTotal") expectedGrand)
  else .ok ()

/-- `assertTotalsConsistency(backup)`. -/
def assertTotalsConsistency (parse : String → Option Int) (doc : JSValue) :
    Except ImportError Unit :=
  validateList (checkEntryTotals parse (arrField doc "expenses"))
    (arrField doc "workEntries") 0

-- ---------------------------------------------------------------------------
-- Backup service — rehydration, store, import
-- ---------------------------------------------------------------------------

/-- `rehydrateJob` / `rehydrateWorkEntry` / `rehydrateExpense` (all three
have the same body): `{ ...raw, createdAt: new Date(raw.createdAt) }`.
Validation has already proved `createdAt` to be a parseable string, so the
non-string branch (which would build an Invalid Date) is never reached on
the import path. -/
def rehydrateRecord (parse : String → Option Int) (raw : JSValue) : JSValue :=
  match raw.getField "createdAt" with
  | some (.str s) => raw.setField "createdAt" (.date (parse s))
  | _ => raw.setField "createdAt" (.date none)

/-- The three IndexedDB object stores owned by the backup service, each a
keyed collection of records. -/
structure Store where
  jobs : List JSValue
  workEntries : List JSValue
  expenses : List JSValue
  deriving Repr

/-- `importFullBackup(data)` on a store: validation steps 1–6 in source
order, then the atomic clear-and-insert transaction (with duplicate ids
already excluded, clearing and `put`-ing every record in order leaves the
collections exactly equal to the rehydrated document arrays). -/
def importFullBackup (parse : String → Option Int) (data : JSValue)
    (store : Store) : Except ImportError Store :=
  match validateBackup parse data with
  | .error e => .error e
  | .ok () =>
  match assertNoDuplicateIds "jobs" [] ((arrField data "jobs").map (strField · "id")) with
  | .error e => .error e
  | .ok () =>
  match assertNoDuplicateIds "workEntries" [] ((arrField data "workEntries").map (strField · "id")) with
  | .error e => .error e
  | .ok () =>
  match assertNoDuplicateIds "expenses" [] ((arrField data "expenses").map (strField · "id")) with
  | .error e => .error e
  | .ok () =>
  match assertReferentialIntegrity data with
  | .error e => .error e
  | .ok () =>
  match assertTotalsConsistency parse data with
  | .error e => .error e
  | .ok () =>
  .ok { jobs := (arrField data "jobs").map (rehydrateRecord parse),
        workEntries := (arrField data "workEntries").map (rehydrateRecord parse),
        expenses := (arrField data "expenses").map (rehydrateRecord parse) }

/-- The store contents after an `importFullBackup` call: a thrown
validation error propagates before the readwrite transaction is opened, so
the store keeps its prior content. -/
def storeAfterImport (parse : String → Option Int) (data : JSValue)
    (store : Store) : Store :=
  match importFullBackup parse data store with
  | .ok newStore => newStore
  | .error _ => store

-- ---------------------------------------------------------------------------
-- Backup service — export
-- ---------------------------------------------------------------------------

mutual

/-- `JSON.stringify` value conversion: a valid `Date` becomes its
`toISOString()` string, an Invalid Date becomes `null`; everything else is
kept structurally. -/
def serializeValue (format : Int → String) : JSValue → JSValue
  | .date (some ms) => .str (format ms)
  | .date none => .null
  | .arr xs => .arr (serializeList format xs)
  | .obj fields => .obj (serializeFields format fields)
  | .null => .null
  | .bool b => .bool b
  | .num n => .num n
  | .str s => .str s

/-- `JSON.stringify` over an array of values. -/
def serializeList (format : Int → String) : List JSValue → List JSValue
  | [] => []
  | x :: xs => serializeValue format x :: serializeList format xs

/-- `JSON.stringify` over the fields of an object. -/
def serializeFields (format : Int → String) :
    List (String × JSValue) → List (String × JSValue)
  | [] => []
  | (k, v) :: rest => (k, serializeValue format v) :: serializeFields format rest

end

/-- `exportFullBackup()` followed by `JSON.stringify`: the backup document
as a JSON value, reading all three collections in one snapshot and
stamping `exportedAt` with the current time (`nowMs`). -/
def exportFullBackup (format : Int → String) (nowMs : Int) (store : Store) : JSValue :=
  .obj [("version", .num (.finite 1)),
        ("exportedAt", .str (format nowMs)),
        ("jobs", .arr (serializeList format store.jobs)),
        ("workEntries", .arr (serializeList format store.workEntries)),
        ("expenses", .arr (serializeList format store.expenses))]

/-- The three record arrays of a backup document (the parts compared by
the round-trip property, which ignores `exportedAt`). -/
def backupArrays (doc : JSValue) : List JSValue × List JSValue × List JSValue :=
  (arrField doc "jobs", arrField doc "workEntries", arrField doc "expenses")

-- ---------------------------------------------------------------------------
-- Statement-side helper definitions
-- ---------------------------------------------------------------------------

/-- Some reference in the document dangles: a WorkEntry whose `jobId`
names no in-document Job, or an Expense whose `workEntryId` names no
in-document WorkEntry. -/
def hasDanglingRef (doc : JSValue) : Prop :=
  (∃ r ∈ arrField doc "workEntries",
      strField r "jobId" ∉ (arrField doc "jobs").map (strField · "id")) ∨
  (∃ r ∈ arrField doc "expenses",
      strField r "workEntryId" ∉ (arrField doc "workEntries").map (strField · "id"))

/-- Replace the `i`-th element of a list. -/
def modifyAt (f : JSValue → JSValue) : Nat → List JSValue → List JSValue
  | _, [] => []
  | 0, x :: xs => f x :: xs
  | n + 1, x :: xs => x :: modifyAt f n xs

/-- Add `0.01` to a record's stored `grandTotal`. -/
def addCentToGrand (r : JSValue) : JSValue :=
  match r.getField "grandTotal" with
  | some (.num (.finite g)) => r.setField "grandTotal" (.num (.finite (g + 1/100)))
  | _ => r

/-- The hand-edited document: `workEntries[i].grandTotal += 0.01`. -/
def mutateGrand (doc : JSValue) (i : Nat) : JSValue :=
  doc.setField "workEntries" (.arr (modifyAt addCentToGrand i (arrField doc "workEntries")))

/-- Every record of the store carries a valid `Date` in `createdAt` — the
invariant imposed by the TypeScript record types (`createdAt: Date`). -/
def StoreWF (store : Store) : Prop :=
  ∀ r ∈ store.jobs ++ store.workEntries ++ store.expenses,
    ∃ ms : Int, r.getField "createdAt" = some (.date (some ms))

/-- A toy timestamp codec (unary): a concrete environment instantiation
for witnesses, satisfying `toyParse (toyFormat ms) = some ms`. -/
def toyFormat : Int → String
  | .ofNat n => String.mk ('p' :: List.replicate n 'a')
  | .negSucc n => String.mk ('n' :: List.replicate n 'a')

/-- Inverse of `toyFormat`. -/
def toyParse (s : String) : Option Int :=
  match s.data with
  | 'p' :: rest => some (Int.ofNat rest.length)
  | 'n' :: rest => some (Int.negSucc rest.length)
  | _ => none

-- ---------------------------------------------------------------------------
-- Concrete sample inputs (used by witnesses and counterexamples)
-- ---------------------------------------------------------------------------

/-- A fully valid Job record (dates written in the toy codec). -/
def sampleJob : JSValue :=
  .obj [("id", .str "j1"), ("name", .str "N"), ("client", .str "C"),
        ("defaultHourlyRate", .num (.finite 500)), ("active", .bool true),
        ("createdAt", .str "p")]

/-- A fully valid WorkEntry record whose totals match one 150 expense. -/
def sampleEntry : JSValue :=
  .obj [("id", .str "w1"), ("jobId", .str "j1"), ("date", .str "2025-01-01"),
        ("startTime", .str "p"), ("endTime", .str "p"), ("createdAt", .str "p"),
        ("hourlyRateUsed", .num (.finite 500)), ("kilometers", .num (.finite 0)),
        ("kmRateUsed", .num (.finite 0)), ("laborTotal", .num (.finite 0)),
        ("kmTotal", .num (.finite 0)), ("expensesTotal", .num (.finite 150)),
        ("grandTotal", .num (.finite 150))]

/-- A fully valid Expense record for `sampleEntry`. -/
def sampleExpense : JSValue :=
  .obj [("id", .str "e1"), ("workEntryId", .str "w1"), ("category", .str "mat"),
        ("amount", .num (.finite 150)), ("createdAt", .str "p")]

/-- A backup document that passes every import check. -/
def sampleDoc : JSValue :=
  .obj [("version", .num (.finite 1)), ("exportedAt", .str "p"),
        ("jobs", .arr [sampleJob]), ("workEntries", .arr [sampleEntry]),
        ("expenses", .arr [sampleExpense])]

/-- `sampleDoc` with `jobs[0].name` and `expenses[0].category` set to the
empty string (everything else untouched). -/
def sampleDocEmptyStrings : JSValue :=
  .obj [("version", .num (.finite 1)), ("exportedAt", .str "p"),
        ("jobs", .arr [sampleJob.setField "name" (.str "")]),
        ("workEntries", .arr [sampleEntry]),
        ("expenses", .arr [sampleExpense.setField "category" (.str "")])]

/-- An otherwise well-formed document with `version: 2`. -/
def sampleDocVersion2 : JSValue :=
  .obj [("version", .num (.finite 2)), ("exportedAt", .str "p"),
        ("jobs", .arr []), ("workEntries", .arr []), ("expenses", .arr [])]

/-- A non-empty prior store content. -/
def sampleStore : Store :=
  { jobs := [.obj [("id", .str "old-job"), ("createdAt", .date (some 7))]],
    workEntries := [], expenses := [] }

/-- A concrete `WorkEntryInput` with zero rates and a zero-length session
(so labor and km totals are 0). -/
def sampleInput : WorkEntryInput :=
  { date := "2025-01-01", startTime := toyFormat 0, endTime := toyFormat 0,
    jobId := "j1", hourlyRateUsed := 0, kilometers := 0, kmRateUsed := 0 }

/-- Two expense inputs with amounts 0.1 and 0.2. -/
def sampleExpenseInputs : List ExpenseInput :=
  [{ amount := 1/10, category := "a", receiptImageUrl := "" },
   { amount := 2/10, category := "b", receiptImageUrl := "" }]

/-- The WorkEntry `createWorkEntry` persists for `sampleInput` and
`sampleExpenseInputs` (ids `"w"`, `["x", "y"]`, time 5). -/
def sampleCreatedEntry : WorkEntry :=
  { id := "w", date := "2025-01-01", startTime := toyFormat 0,
    endTime := toyFormat 0, jobId := "j1", hourlyRateUsed := 0,
    kilometers := 0, kmRateUsed := 0, laborTotal := 0, kmTotal := 0,
    expensesTotal := 3/10, grandTotal := 3/10, createdAt := 5 }

/-- The Expense records `createWorkEntry` persists alongside
`sampleCreatedEntry`. -/
def sampleCreatedExpenses : List Expense :=
  [{ id := "x", workEntryId := "w", amount := 1/10, category := "a",
     receiptImageUrl := "", createdAt := 5 },
   { id := "y", workEntryId := "w", amount := 2/10, category := "b",
     receiptImageUrl := "", createdAt := 5 }]

/-- `sampleDoc` with the Jobs array emptied, so `sampleEntry.jobId` is a
dangling reference. -/
def sampleDocDangling : JSValue :=
  .obj [("version", .num (.finite 1)), ("exportedAt", .str "p"),
        ("jobs", .arr []), ("workEntries", .arr [sampleEntry]),
        ("expenses", .arr [])]

/-- The store produced by importing `sampleDoc` (all `createdAt` strings
rehydrated to `Date` values). -/
def sampleImported : Store :=
  { jobs := [sampleJob.setField "createdAt" (.date (some 0))],
    workEntries := [sampleEntry.setField "createdAt" (.date (some 0))],
    expenses := [sampleExpense.setField "createdAt" (.date (some 0))] }

-- ---------------------------------------------------------------------------
-- Arithmetic helper lemmas
-- ---------------------------------------------------------------------------

theorem jsRound_eq_floor (q : ℚ) : jsRound q = ⌊q + 1/2⌋ := Rat.floor_def.symm

theorem round2_nonneg {q : ℚ} (hq : 0 ≤ q) : 0 ≤ round2 q := by
  have h : (0 : ℤ) ≤ jsRound (q * 100) := by
    rw [jsRound_eq_floor]
    exact Int.le_floor.mpr (by push_cast; linarith)
  unfold round2
  positivity

theorem round2_add_cent (q : ℚ) : round2 (q + 1/100) = round2 q + 1/100 := by
  have h : jsRound ((q + 1/100) * 100) = jsRound (q * 100) + 1 := by
    rw [jsRound_eq_floor, jsRound_eq_floor]
    have : (q + 1/100) * 100 + 1/2 = (q * 100 + 1/2) + (1 : ℤ) := by push_cast; ring
    rw [this, Int.floor_add_int]
  unfold round2
  rw [h]
  push_cast
  ring

theorem round2_add_cent_ne (q : ℚ) : round2 (q + 1/100) ≠ round2 q := by
  rw [round2_add_cent]
  intro h
  have := sub_eq_zero.mpr h
  norm_num at this

-- ---------------------------------------------------------------------------
-- C4 — calculateDurationInHours
-- ---------------------------------------------------------------------------

/-- C4: for every pair of input strings, `calculateDurationInHours` fails
when either string does not parse; fails when the parsed end instant is
strictly before the parsed start instant; and otherwise returns
`(end − start)` in hours rounded to 2 decimals, a non-negative value.
Equal start and end timestamps are not rejected and yield 0. -/
theorem c4_durationHours (parse : String → Option Int) (s e : String) :
    (parse s = none →
      calculateDurationInHours parse s e = .error (.invalidStartTime s)) ∧
    (∀ ts, parse s = some ts → parse e = none →
      calculateDurationInHours parse s e = .error (.invalidEndTime e)) ∧
    (∀ ts te, parse s = some ts → parse e = some te → te < ts →
      calculateDurationInHours parse s e = .error (.endBeforeStart s e)) ∧
    (∀ ts te, parse s = some ts → parse e = some te → ts ≤ te →
      calculateDurationInHours parse s e =
        .ok (round2 (((te - ts : ℤ) : ℚ) / (1000 * 60 * 60))) ∧
      0 ≤ round2 (((te - ts : ℤ) : ℚ) / (1000 * 60 * 60))) ∧
    (∀ ts, parse s = some ts → parse e = some ts →
      calculateDurationInHours parse s e = .ok 0) := by
  refine ⟨?_, ?_, ?_, ?_, ?_⟩
  · intro hs
    simp [calculateDurationInHours, hs]
  · intro ts hs he
    simp [calculateDurationInHours, hs, he]
  · intro ts te hs he hlt
    have : te - ts < 0 := by omega
    simp [calculateDurationInHours, hs, he, this]
  · intro ts te hs he hle
    have hnot : ¬ (te - ts < 0) := by omega
    constructor
    · simp [calculateDurationInHours, hs, he, hnot]
    · apply round2_nonneg
      have h0 : (0 : ℚ) ≤ ((te - ts : ℤ) : ℚ) := by
        have : (0 : ℤ) ≤ te - ts := by omega
        exact_mod_cast this
      exact div_nonneg h0 (by norm_num)
  · intro ts hs he
    have hnot : ¬ ((ts - ts : ℤ) < 0) := by omega
    have heq : calculateDurationInHours parse s e =
        .ok (round2 (((ts - ts : ℤ) : ℚ) / (1000 * 60 * 60))) := by
      simp [calculateDurationInHours, hs, he, hnot]
    rw [heq, sub_self]
    norm_num
    with_unfolding_all decide

/-- Witness for C4 at a concrete parse environment and inputs. -/
theorem c4_durationHours_witness :
    calculateDurationInHours toyParse (toyFormat 0) (toyFormat 1) =
      .ok (round2 (((1 - 0 : ℤ) : ℚ) / (1000 * 60 * 60))) :=
  ((c4_durationHours toyParse (toyFormat 0) (toyFormat 1)).2.2.2.1
    0 1 (by rfl) (by rfl) (by omega)).1

-- ---------------------------------------------------------------------------
-- C9 — calculateGrandTotal is permutation-invariant
-- ---------------------------------------------------------------------------

/-- C9: for non-negative `a b c` and any permutation `(x, y, z)` of
`(a, b, c)` (as multisets), `calculateGrandTotal x y z` equals
`calculateGrandTotal a b c`. -/
theorem c9_grandTotal_perm (a b c x y z : ℚ)
    (ha : 0 ≤ a) (hb : 0 ≤ b) (hc : 0 ≤ c)
    (hperm : ({x, y, z} : Multiset ℚ) = {a, b, c}) :
    calculateGrandTotal x y z = calculateGrandTotal a b c := by
  have hmem : ∀ w : ℚ, w ∈ ({x, y, z} : Multiset ℚ) → 0 ≤ w := by
    intro w hw
    rw [hperm] at hw
    simp only [Multiset.insert_eq_cons, Multiset.mem_cons, Multiset.mem_singleton] at hw
    rcases hw with h | h | h <;> subst h <;> assumption
  have hx : 0 ≤ x := hmem x (by simp)
  have hy : 0 ≤ y := hmem y (by simp)
  have hz : 0 ≤ z := hmem z (by simp)
  have hsum : x + y + z = a + b + c := by
    have := congrArg Multiset.sum hperm
    simp only [Multiset.insert_eq_cons, Multiset.sum_cons, Multiset.sum_singleton] at this
    linarith
  simp only [calculateGrandTotal,
    not_lt.mpr hx, not_lt.mpr hy, not_lt.mpr hz,
    not_lt.mpr ha, not_lt.mpr hb, not_lt.mpr hc, if_false, hsum]

/-- Witness for C9 at a concrete permutation. -/
theorem c9_grandTotal_perm_witness :
    calculateGrandTotal 2 1 3 = calculateGrandTotal 1 2 3 :=
  c9_grandTotal_perm 1 2 3 2 1 3 (by norm_num) (by norm_num) (by norm_num)
    (by decide)

-- ---------------------------------------------------------------------------
-- C3 — expensesTotal as persisted by the entry service
-- ---------------------------------------------------------------------------

theorem foldl_add_amount (xs : List ExpenseInput) (a : ℚ) :
    xs.foldl (fun sum e => sum + e.amount) a = a + (xs.map ExpenseInput.amount).sum := by
  induction xs generalizing a with
  | nil => simp
  | cons x xs ih =>
    simp only [List.foldl_cons, List.map_cons, List.sum_cons, ih]
    ring

/-- C3 counterexample: with a single supplied expense of amount `1.005`,
`createWorkEntry` succeeds and persists `expensesTotal = 1.005`, which is
not the 2-decimal rounding (`1.01`) of the sum of the supplied amounts —
the write path applies no rounding to `expensesTotal`. -/
theorem c3_counterexample :
    (createWorkEntry toyParse sampleInput
        [{ amount := 201/200, category := "mat", receiptImageUrl := "" }]
        "w1" ["e1"] 0 { workEntries := [], expenses := [] }).map
      (fun r => r.1.expensesTotal) = .ok (201/200) ∧
    round2 (201/200) = 101/100 ∧ (201/200 : ℚ) ≠ round2 (201/200) :=
  ⟨by with_unfolding_all rfl, by with_unfolding_all decide,
   by with_unfolding_all decide⟩

/-- C3 amended: for every successful `createWorkEntry` or
`updateWorkEntry` call, the persisted WorkEntry's `expensesTotal` equals
the plain, unrounded sum of the supplied expense amounts (it therefore
equals the 2-decimal rounding of that sum only when the sum already has at
most 2 decimals, e.g. amounts 0.1 and 0.2 give exactly 0.3). -/
theorem c3_expensesTotal_unrounded :
    (∀ (parse : String → Option Int) input expenses entryId expenseIds now store
        entry exps st,
      createWorkEntry parse input expenses entryId expenseIds now store =
        .ok (entry, exps, st) →
      entry.expensesTotal = (expenses.map ExpenseInput.amount).sum) ∧
    (∀ (parse : String → Option Int) id input expenses expenseIds now store
        entry exps st,
      updateWorkEntry parse id input expenses expenseIds now store =
        .ok (entry, exps, st) →
      entry.expensesTotal = (expenses.map ExpenseInput.amount).sum) := by
  constructor
  · intro parse input expenses entryId expenseIds now store entry exps st h
    unfold createWorkEntry at h
    repeat' split at h
    all_goals simp only [reduceCtorEq, Except.ok.injEq, Prod.mk.injEq] at h
    obtain ⟨he, -, -⟩ := h
    rw [← he]
    show inputExpensesTotal expenses = _
    unfold inputExpensesTotal
    rw [foldl_add_amount, zero_add]
  · intro parse id input expenses expenseIds now store entry exps st h
    unfold updateWorkEntry at h
    repeat' split at h
    all_goals simp only [reduceCtorEq, Except.ok.injEq, Prod.mk.injEq] at h
    obtain ⟨he, -, -⟩ := h
    rw [← he]
    show inputExpensesTotal expenses = _
    unfold inputExpensesTotal
    rw [foldl_add_amount, zero_add]

/-- Witness for C3 at a concrete call: amounts 0.1 and 0.2 persist
`expensesTotal` exactly 0.3 (their exact sum). -/
theorem c3_expensesTotal_unrounded_witness :
    sampleCreatedEntry.expensesTotal =
      (sampleExpenseInputs.map ExpenseInput.amount).sum :=
  c3_expensesTotal_unrounded.1 toyParse sampleInput sampleExpenseInputs
    "w" ["x", "y"] 5 { workEntries := [], expenses := [] }
    sampleCreatedEntry sampleCreatedExpenses
    { workEntries := [sampleCreatedEntry], expenses := sampleCreatedExpenses }
    (by with_unfolding_all rfl)

-- ---------------------------------------------------------------------------
-- Object field lemmas
-- ---------------------------------------------------------------------------

theorem lookup_setFields_self (k : String) (v : JSValue) :
    ∀ fs : List (String × JSValue), (JSValue.setFields k v fs).lookup k = some v := by
  intro fs
  induction fs with
  | nil => simp [JSValue.setFields, List.lookup]
  | cons kv rest ih =>
    obtain ⟨k', v'⟩ := kv
    by_cases h : k' = k
    · simp [JSValue.setFields, h, List.lookup]
    · have hb : (k == k') = false := by
        simp only [beq_eq_false_iff_ne]
        exact fun he => h he.symm
      simp [JSValue.setFields, if_neg h, List.lookup, hb, ih]

theorem lookup_setFields_ne (k k' : String) (v : JSValue) (hne : k' ≠ k) :
    ∀ fs : List (String × JSValue), (JSValue.setFields k v fs).lookup k' = fs.lookup k' := by
  intro fs
  have hb : (k' == k) = false := by
    simp only [beq_eq_false_iff_ne]
    exact hne
  induction fs with
  | nil => simp [JSValue.setFields, List.lookup, hb]
  | cons kv rest ih =>
    obtain ⟨k'', v''⟩ := kv
    by_cases h : k'' = k
    · subst h
      simp [JSValue.setFields, List.lookup, hb]
    · by_cases h2 : k' = k''
      · have hb2 : (k' == k'') = true := by simpa using h2
        simp [JSValue.setFields, if_neg h, List.lookup, hb2]
      · have hb2 : (k' == k'') = false := by
          simp only [beq_eq_false_iff_ne]
          exact h2
        simp [JSValue.setFields, if_neg h, List.lookup, hb2, ih]

theorem getField_setField_self (fs : List (String × JSValue)) (k : String) (v : JSValue) :
    ((JSValue.obj fs).setField k v).getField k = some v := by
  simp [JSValue.setField, JSValue.getField, lookup_setFields_self]

theorem getField_setField_ne (o : JSValue) (k k' : String) (v : JSValue) (hne : k' ≠ k) :
    (o.setField k v).getField k' = o.getField k' := by
  cases o <;> simp [JSValue.setField, JSValue.getField]
  exact lookup_setFields_ne k k' v hne _

theorem setFields_eq_of_lookup (k : String) (v : JSValue) :
    ∀ fs : List (String × JSValue), fs.lookup k = some v →
      JSValue.setFields k v fs = fs := by
  intro fs
  induction fs with
  | nil => intro h; simp [List.lookup] at h
  | cons kv rest ih =>
    obtain ⟨k', v'⟩ := kv
    intro h
    by_cases hk : k' = k
    · subst hk
      simp only [List.lookup, beq_self_eq_true] at h
      cases h
      simp [JSValue.setFields]
    · have hb : (k == k') = false := by
        simp only [beq_eq_false_iff_ne]
        exact fun he => hk he.symm
      simp only [List.lookup, hb] at h
      simp only [JSValue.setFields, if_neg hk]
      rw [ih h]

theorem keys_setFields_of_mem (k : String) (v : JSValue) :
    ∀ fs : List (String × JSValue), k ∈ fs.map Prod.fst →
      (JSValue.setFields k v fs).map Prod.fst = fs.map Prod.fst := by
  intro fs
  induction fs with
  | nil => intro h; simp at h
  | cons kv rest ih =>
    obtain ⟨k', v'⟩ := kv
    intro h
    by_cases hk : k' = k
    · simp [JSValue.setFields, hk]
    · simp only [List.map_cons, List.mem_cons] at h
      rcases h with h | h
      · exact absurd h.symm hk
      · simp only [JSValue.setFields, if_neg hk, List.map_cons]
        rw [ih h]

-- ---------------------------------------------------------------------------
-- Sequencing and per-field assertion lemmas
-- ---------------------------------------------------------------------------

theorem andThen_ok_iff (a b : Except ImportError Unit) :
    andThen a b = .ok () ↔ a = .ok () ∧ b = .ok () := by
  cases a with
  | ok u => cases u; simp [andThen]
  | error e => simp [andThen]

theorem andThen_error_left (a b : Except ImportError Unit) (e : ImportError)
    (h : a = .error e) : andThen a b = .error e := by
  subst h; rfl

theorem assertNonEmptyString_ok_iff (v : Option JSValue) (l : BLabel) :
    assertNonEmptyString v l = .ok () ↔ ∃ s, v = some (.str s) := by
  rcases v with - | w
  · simp [assertNonEmptyString]
  · cases w <;> simp [assertNonEmptyString]

theorem assertFiniteNumber_ok_iff (v : Option JSValue) (l : BLabel) :
    assertFiniteNumber v l = .ok () ↔ ∃ q, v = some (.num (.finite q)) := by
  rcases v with - | w
  · simp [assertFiniteNumber]
  · cases w with
    | num n => cases n <;> simp [assertFiniteNumber]
    | _ => simp [assertFiniteNumber]

theorem assertValidDateString_ok_iff (parse : String → Option Int)
    (v : Option JSValue) (l : BLabel) :
    assertValidDateString parse v l = .ok () ↔
      ∃ s ms, v = some (.str s) ∧ s ≠ "" ∧ parse s = some ms := by
  rcases v with - | w
  · simp [assertValidDateString]
  · cases w with
    | str s =>
      by_cases hs : s = ""
      · simp [assertValidDateString, hs]
      · rcases hp : parse s with - | ms
        · simp [assertValidDateString, hs, hp]
        · simp [assertValidDateString, hs, hp]
    | _ => simp [assertValidDateString]

theorem checkBoolean_ok_iff (v : Option JSValue) (l : BLabel) :
    checkBoolean v l = .ok () ↔ ∃ b, v = some (.bool b) := by
  rcases v with - | w
  · simp [checkBoolean]
  · cases w <;> simp [checkBoolean]

theorem checkVersion_ok_iff (v : Option JSValue) :
    checkVersion v = .ok () ↔ v = some (.num (.finite 1)) := by
  rcases v with - | w
  · simp [checkVersion]
  · cases w with
    | num n =>
      cases n with
      | finite q =>
        by_cases hq : q = 1
        · simp [checkVersion, hq]
        · simp [checkVersion, hq]
      | _ => simp [checkVersion]
    | _ => simp [checkVersion]

theorem checkIsArray_ok_iff (v : Option JSValue) (field : String) :
    checkIsArray v field = .ok () ↔ ∃ xs, v = some (.arr xs) := by
  rcases v with - | w
  · simp [checkIsArray]
  · cases w <;> simp [checkIsArray]

-- ---------------------------------------------------------------------------
-- Loop lemmas
-- ---------------------------------------------------------------------------

theorem validateList_ok_iff (f : JSValue → Nat → Except ImportError Unit) :
    ∀ (xs : List JSValue) (i0 : Nat),
      validateList f xs i0 = .ok () ↔
        ∀ j (hj : j < xs.length), f (xs.get ⟨j, hj⟩) (i0 + j) = .ok () := by
  intro xs
  induction xs with
  | nil => intro i0; simp [validateList]
  | cons x rest ih =>
    intro i0
    constructor
    · intro h j hj
      unfold validateList at h
      rcases hx : f x i0 with e | u
      · rw [hx] at h; cases h
      · cases u
        rw [hx] at h
        cases j with
        | zero => simpa using hx
        | succ j' =>
          have := (ih (i0 + 1)).mp h j' (by simpa using Nat.lt_of_succ_lt_succ hj)
          simpa [Nat.add_assoc, Nat.add_comm 1 j'] using this
    · intro h
      unfold validateList
      have h0 := h 0 (by simp)
      simp only [List.get] at h0
      rw [Nat.add_zero] at h0
      rw [h0]
      refine (ih (i0 + 1)).mpr ?_
      intro j hj
      have := h (j + 1) (by simpa using Nat.succ_lt_succ hj)
      simpa [Nat.add_assoc, Nat.add_comm 1 j] using this

theorem validateList_error_at (f : JSValue → Nat → Except ImportError Unit)
    (er : ImportError) :
    ∀ (xs : List JSValue) (i0 k : Nat) (hk : k < xs.length),
      (∀ j (hj : j < k), f (xs.get ⟨j, Nat.lt_trans hj hk⟩) (i0 + j) = .ok ()) →
      f (xs.get ⟨k, hk⟩) (i0 + k) = .error er →
      validateList f xs i0 = .error er := by
  intro xs
  induction xs with
  | nil => intro i0 k hk; simp at hk
  | cons x rest ih =>
    intro i0 k hk hpre herr
    cases k with
    | zero =>
      unfold validateList
      rw [Nat.add_zero] at herr
      simp only [List.get] at herr
      rw [herr]
    | succ k' =>
      have h0 := hpre 0 (Nat.succ_pos k')
      simp only [List.get] at h0
      rw [Nat.add_zero] at h0
      unfold validateList
      rw [h0]
      refine ih (i0 + 1) k' (Nat.lt_of_succ_lt_succ hk) ?_ ?_
      · intro j hj
        have := hpre (j + 1) (Nat.succ_lt_succ hj)
        simpa [Nat.add_assoc, Nat.add_comm 1 j] using this
      · simpa [Nat.add_assoc, Nat.add_comm 1 k'] using herr

-- ---------------------------------------------------------------------------
-- Serialization lemmas
-- ---------------------------------------------------------------------------

theorem serializeList_eq_map (format : Int → String) :
    ∀ xs : List JSValue, serializeList format xs = xs.map (serializeValue format)
  | [] => rfl
  | x :: xs => by
    simp only [serializeList, List.map_cons, serializeList_eq_map format xs]

theorem serializeFields_eq_map (format : Int → String) :
    ∀ fs : List (String × JSValue),
      serializeFields format fs = fs.map (fun kv => (kv.1, serializeValue format kv.2))
  | [] => rfl
  | (k, v) :: fs => by
    simp only [serializeFields, List.map_cons, serializeFields_eq_map format fs]

mutual

theorem serializeValue_idem (format : Int → String) :
    ∀ v : JSValue, serializeValue format (serializeValue format v) = serializeValue format v
  | .null => rfl
  | .bool _ => rfl
  | .num _ => rfl
  | .str _ => rfl
  | .date (some _) => rfl
  | .date none => rfl
  | .arr xs => by
    simp only [serializeValue, serializeList_idem format xs]
  | .obj fs => by
    simp only [serializeValue, serializeFields_idem format fs]

theorem serializeList_idem (format : Int → String) :
    ∀ xs : List JSValue, serializeList format (serializeList format xs) = serializeList format xs
  | [] => rfl
  | x :: xs => by
    simp only [serializeList, serializeValue_idem format x, serializeList_idem format xs]

theorem serializeFields_idem (format : Int → String) :
    ∀ fs : List (String × JSValue),
      serializeFields format (serializeFields format fs) = serializeFields format fs
  | [] => rfl
  | (k, v) :: fs => by
    simp only [serializeFields, serializeValue_idem format v, serializeFields_idem format fs]

end

theorem lookup_serializeFields (format : Int → String) (k : String) :
    ∀ fs : List (String × JSValue),
      (serializeFields format fs).lookup k = (fs.lookup k).map (serializeValue format) := by
  intro fs
  induction fs with
  | nil => simp [serializeFields, List.lookup]
  | cons kv rest ih =>
    obtain ⟨k', v'⟩ := kv
    cases hb : (k == k') <;> simp [serializeFields, List.lookup, hb, ih]

theorem serializeFields_setFields (format : Int → String) (k : String) (v : JSValue) :
    ∀ fs : List (String × JSValue),
      serializeFields format (JSValue.setFields k v fs) =
        JSValue.setFields k (serializeValue format v) (serializeFields format fs) := by
  intro fs
  induction fs with
  | nil => simp [JSValue.setFields, serializeFields]
  | cons kv rest ih =>
    obtain ⟨k', v'⟩ := kv
    by_cases h : k' = k
    · simp [JSValue.setFields, h, serializeFields]
    · simp [JSValue.setFields, if_neg h, serializeFields, ih]

/-- On a record whose `createdAt` is a valid `Date`, serializing, then
rehydrating, then serializing again gives the serialized original —
provided the codec round-trips. -/
theorem serialize_rehydrate_serialize (format : Int → String)
    (parse : String → Option Int) (hrt : ∀ ms, parse (format ms) = some ms)
    (r : JSValue) (ms : Int)
    (hcr : r.getField "createdAt" = some (.date (some ms))) :
    serializeValue format (rehydrateRecord parse (serializeValue format r)) =
      serializeValue format r := by
  obtain ⟨fs, rfl⟩ : ∃ fs, r = .obj fs := by
    cases r <;> simp [JSValue.getField] at hcr ⊢
  have hlook : fs.lookup "createdAt" = some (.date (some ms)) := by
    simpa [JSValue.getField] using hcr
  have hser : (serializeValue format (.obj fs)).getField "createdAt" =
      some (.str (format ms)) := by
    simp [serializeValue, JSValue.getField, lookup_serializeFields, hlook, serializeValue]
  rw [rehydrateRecord, hser]
  show serializeValue format
      ((serializeValue format (JSValue.obj fs)).setField "createdAt"
        (.date (parse (format ms)))) =
    serializeValue format (.obj fs)
  rw [hrt]
  show serializeValue format
      ((JSValue.obj (serializeFields format fs)).setField "createdAt" (.date (some ms))) =
    serializeValue format (.obj fs)
  simp only [JSValue.setField, serializeValue, serializeFields_setFields,
    serializeFields_idem]
  congr 1
  have hl2 : (serializeFields format fs).lookup "createdAt" = some (.str (format ms)) := by
    rw [lookup_serializeFields, hlook]
    rfl
  exact setFields_eq_of_lookup _ _ _ hl2

-- ---------------------------------------------------------------------------
-- modifyAt and addCentToGrand lemmas
-- ---------------------------------------------------------------------------

theorem length_modifyAt (f : JSValue → JSValue) :
    ∀ (n : Nat) (xs : List JSValue), (modifyAt f n xs).length = xs.length
  | n, [] => by cases n <;> rfl
  | 0, _ :: _ => rfl
  | n + 1, x :: xs => by simp [modifyAt, length_modifyAt f n xs]

theorem get_modifyAt_self (f : JSValue → JSValue) :
    ∀ (n : Nat) (xs : List JSValue) (hn : n < xs.length),
      (modifyAt f n xs).get ⟨n, by rw [length_modifyAt]; exact hn⟩ = f (xs.get ⟨n, hn⟩)
  | 0, x :: xs, _ => rfl
  | n + 1, x :: xs, hn => get_modifyAt_self f n xs (Nat.lt_of_succ_lt_succ hn)

theorem get_modifyAt_ne (f : JSValue → JSValue) :
    ∀ (n j : Nat) (xs : List JSValue) (hj : j < xs.length), j ≠ n →
      (modifyAt f n xs).get ⟨j, by rw [length_modifyAt]; exact hj⟩ = xs.get ⟨j, hj⟩
  | _, _, [], hj, _ => by simp at hj
  | 0, 0, x :: xs, _, hne => absurd rfl hne
  | 0, j + 1, x :: xs, hj, _ => rfl
  | n + 1, 0, x :: xs, _, _ => rfl
  | n + 1, j + 1, x :: xs, hj, hne =>
    get_modifyAt_ne f n j xs (Nat.lt_of_succ_lt_succ hj) (fun h => hne (by rw [h]))

theorem map_modifyAt_eq {α : Type} (g : JSValue → α) (f : JSValue → JSValue)
    (hg : ∀ x, g (f x) = g x) :
    ∀ (n : Nat) (xs : List JSValue), (modifyAt f n xs).map g = xs.map g
  | n, [] => by cases n <;> rfl
  | 0, x :: xs => by simp [modifyAt, hg]
  | n + 1, x :: xs => by simp [modifyAt, map_modifyAt_eq g f hg n xs]

theorem addCent_getField_ne (r : JSValue) (k : String) (hk : k ≠ "grandTotal") :
    (addCentToGrand r).getField k = r.getField k := by
  unfold addCentToGrand
  rcases h : r.getField "grandTotal" with - | w
  · rfl
  · cases w with
    | num n =>
      cases n with
      | finite g => exact getField_setField_ne r "grandTotal" k _ hk
      | _ => rfl
    | _ => rfl

theorem addCent_getField_grand (r : JSValue) (g : ℚ)
    (h : r.getField "grandTotal" = some (.num (.finite g))) :
    (addCentToGrand r).getField "grandTotal" = some (.num (.finite (g + 1/100))) := by
  obtain ⟨fs, rfl⟩ : ∃ fs, r = .obj fs := by
    cases r <;> simp [JSValue.getField] at h ⊢
  unfold addCentToGrand
  rw [h]
  exact getField_setField_self fs _ _

theorem addCent_strField_ne (r : JSValue) (k : String) (hk : k ≠ "grandTotal") :
    strField (addCentToGrand r) k = strField r k := by
  unfold strField
  rw [addCent_getField_ne r k hk]

theorem addCent_numField_ne (r : JSValue) (k : String) (hk : k ≠ "grandTotal") :
    numField (addCentToGrand r) k = numField r k := by
  unfold numField
  rw [addCent_getField_ne r k hk]

theorem addCent_isObjectLike (r : JSValue) :
    (addCentToGrand r).isObjectLike = r.isObjectLike := by
  unfold addCentToGrand
  rcases h : r.getField "grandTotal" with - | w
  · rfl
  · cases w with
    | num n =>
      cases n with
      | finite g =>
        cases r <;> simp [JSValue.setField, JSValue.isObjectLike]
      | _ => rfl
    | _ => rfl

-- ---------------------------------------------------------------------------
-- Record-validation characterisations
-- ---------------------------------------------------------------------------

theorem validateWorkEntry_ok_iff (parse : String → Option Int) (r : JSValue) (i : Nat) :
    validateWorkEntry parse r i = .ok () ↔
      (r.isObjectLike = true ∧
       (∃ s, r.getField "id" = some (.str s)) ∧
       (∃ s, r.getField "jobId" = some (.str s)) ∧
       (∃ s, r.getField "date" = some (.str s)) ∧
       (∃ s ms, r.getField "startTime" = some (.str s) ∧ s ≠ "" ∧ parse s = some ms) ∧
       (∃ s ms, r.getField "endTime" = some (.str s) ∧ s ≠ "" ∧ parse s = some ms) ∧
       (∃ s ms, r.getField "createdAt" = some (.str s) ∧ s ≠ "" ∧ parse s = some ms) ∧
       (∃ q, r.getField "hourlyRateUsed" = some (.num (.finite q))) ∧
       (∃ q, r.getField "kilometers" = some (.num (.finite q))) ∧
       (∃ q, r.getField "kmRateUsed" = some (.num (.finite q))) ∧
       (∃ q, r.getField "laborTotal" = some (.num (.finite q))) ∧
       (∃ q, r.getField "kmTotal" = some (.num (.finite q))) ∧
       (∃ q, r.getField "expensesTotal" = some (.num (.finite q))) ∧
       (∃ q, r.getField "grandTotal" = some (.num (.finite q)))) := by
  by_cases hobj : r.isObjectLike
  · simp only [validateWorkEntry, hobj, if_true, andThen_ok_iff,
      assertNonEmptyString_ok_iff, assertValidDateString_ok_iff,
      assertFiniteNumber_ok_iff, true_and]
  · simp only [Bool.not_eq_true] at hobj
    simp [validateWorkEntry, hobj]

theorem validateBackup_ok_iff (parse : String → Option Int) (doc : JSValue) :
    validateBackup parse doc = .ok () ↔
      (doc.isObjectLike = true ∧
       doc.getField "version" = some (.num (.finite 1)) ∧
       (∃ s ms, doc.getField "exportedAt" = some (.str s) ∧ s ≠ "" ∧ parse s = some ms) ∧
       (∃ xs, doc.getField "jobs" = some (.arr xs)) ∧
       (∃ xs, doc.getField "workEntries" = some (.arr xs)) ∧
       (∃ xs, doc.getField "expenses" = some (.arr xs)) ∧
       validateList (validateJob parse) (arrField doc "jobs") 0 = .ok () ∧
       validateList (validateWorkEntry parse) (arrField doc "workEntries") 0 = .ok () ∧
       validateList (validateExpense parse) (arrField doc "expenses") 0 = .ok ()) := by
  by_cases hobj : doc.isObjectLike
  · simp only [validateBackup, hobj, if_true, andThen_ok_iff, checkVersion_ok_iff,
      assertValidDateString_ok_iff, checkIsArray_ok_iff, true_and]
  · simp only [Bool.not_eq_true] at hobj
    simp [validateBackup, hobj]

-- ---------------------------------------------------------------------------
-- Totals-consistency characterisation
-- ---------------------------------------------------------------------------

theorem checkEntryTotals_ok_dest (parse : String → Option Int)
    (es : List JSValue) (r : JSValue) (i : Nat)
    (h : checkEntryTotals parse es r i = .ok ()) :
    ∃ d l k g,
      calculateDurationInHours parse (strField r "startTime") (strField r "endTime") = .ok d ∧
      calculateLaborTotal d (numField r "hourlyRateUsed") = .ok l ∧
      calculateKmTotal (numField r "kilometers") (numField r "kmRateUsed") = .ok k ∧
      calculateGrandTotal l k (round2 (expenseSum es (strField r "id"))) = .ok g ∧
      round2 (numField r "laborTotal") = round2 l ∧
      round2 (numField r "kmTotal") = round2 k ∧
      round2 (numField r "expensesTotal") =
        round2 (round2 (expenseSum es (strField r "id"))) ∧
      round2 (numField r "grandTotal") = round2 g := by
  unfold checkEntryTotals at h
  rcases hd : calculateDurationInHours parse (strField r "startTime") (strField r "endTime")
    with e | d
  · simp only [hd, reduceCtorEq] at h
  simp only [hd] at h
  rcases hl : calculateLaborTotal d (numField r "hourlyRateUsed") with e | l
  · simp only [hl, reduceCtorEq] at h
  simp only [hl] at h
  rcases hk : calculateKmTotal (numField r "kilometers") (numField r "kmRateUsed") with e | k
  · simp only [hk, reduceCtorEq] at h
  simp only [hk] at h
  rcases hgr : calculateGrandTotal l k (round2 (expenseSum es (strField r "id"))) with e | g
  · simp only [hgr, reduceCtorEq] at h
  simp only [hgr] at h
  by_cases c1 : round2 (numField r "laborTotal") ≠ round2 l
  · rw [if_pos c1] at h
    exact Except.noConfusion h
  rw [if_neg c1] at h
  by_cases c2 : round2 (numField r "kmTotal") ≠ round2 k
  · rw [if_pos c2] at h
    exact Except.noConfusion h
  rw [if_neg c2] at h
  by_cases c3 : round2 (numField r "expensesTotal") ≠
      round2 (round2 (expenseSum es (strField r "id")))
  · rw [if_pos c3] at h
    exact Except.noConfusion h
  rw [if_neg c3] at h
  by_cases c4 : round2 (numField r "grandTotal") ≠ round2 g
  · rw [if_pos c4] at h
    exact Except.noConfusion h
  exact ⟨d, l, k, g, rfl, hl, rfl, hgr, not_not.mp c1, not_not.mp c2, not_not.mp c3,
    not_not.mp c4⟩

theorem addCent_numField_grand (r : JSValue) (g0 : ℚ)
    (hg : r.getField "grandTotal" = some (.num (.finite g0))) :
    numField (addCentToGrand r) "grandTotal" = g0 + 1/100 := by
  unfold numField
  rw [addCent_getField_grand r g0 hg]

theorem numField_of_getField (r : JSValue) (k : String) (q : ℚ)
    (h : r.getField k = some (.num (.finite q))) : numField r k = q := by
  unfold numField
  rw [h]

/-- Adding 0.01 to a consistent record's stored `grandTotal` turns the
totals check into a mismatch error naming that record and field, with the
mutated stored value and the unchanged recomputed value. -/
theorem checkEntryTotals_addCent (parse : String → Option Int)
    (es : List JSValue) (r : JSValue) (i : Nat) (g0 : ℚ)
    (hok : checkEntryTotals parse es r i = .ok ())
    (hg : r.getField "grandTotal" = some (.num (.finite g0))) :
    ∃ g, checkEntryTotals parse es (addCentToGrand r) i =
      .error (.totalsMismatch i "grandTotal" (g0 + 1/100) g) := by
  obtain ⟨d, l, k, g, hd, hl, hk, hgr, e1, e2, e3, e4⟩ :=
    checkEntryTotals_ok_dest parse es r i hok
  refine ⟨g, ?_⟩
  have hne4 : round2 (g0 + 1/100) ≠ round2 g := by
    rw [← e4, numField_of_getField r "grandTotal" g0 hg]
    exact round2_add_cent_ne g0
  unfold checkEntryTotals
  rw [addCent_strField_ne r "startTime" (by decide),
      addCent_strField_ne r "endTime" (by decide),
      addCent_strField_ne r "id" (by decide),
      addCent_numField_ne r "hourlyRateUsed" (by decide),
      addCent_numField_ne r "kilometers" (by decide),
      addCent_numField_ne r "kmRateUsed" (by decide),
      addCent_numField_ne r "laborTotal" (by decide),
      addCent_numField_ne r "kmTotal" (by decide),
      addCent_numField_ne r "expensesTotal" (by decide),
      addCent_numField_grand r g0 hg]
  simp only [hd, hl, hk, hgr]
  rw [if_neg (not_not.mpr e1), if_neg (not_not.mpr e2), if_neg (not_not.mpr e3),
      if_pos hne4]

-- ---------------------------------------------------------------------------
-- Import decomposition
-- ---------------------------------------------------------------------------

theorem importFullBackup_ok_dest (parse : String → Option Int)
    (doc : JSValue) (store s' : Store)
    (h : importFullBackup parse doc store = .ok s') :
    validateBackup parse doc = .ok () ∧
    assertNoDuplicateIds "jobs" [] ((arrField doc "jobs").map (strField · "id")) = .ok () ∧
    assertNoDuplicateIds "workEntries" []
      ((arrField doc "workEntries").map (strField · "id")) = .ok () ∧
    assertNoDuplicateIds "expenses" []
      ((arrField doc "expenses").map (strField · "id")) = .ok () ∧
    assertReferentialIntegrity doc = .ok () ∧
    assertTotalsConsistency parse doc = .ok () ∧
    s' = { jobs := (arrField doc "jobs").map (rehydrateRecord parse),
           workEntries := (arrField doc "workEntries").map (rehydrateRecord parse),
           expenses := (arrField doc "expenses").map (rehydrateRecord parse) } := by
  unfold importFullBackup at h
  rcases h1 : validateBackup parse doc with e | u
  · simp only [h1, reduceCtorEq] at h
  cases u
  simp only [h1] at h
  rcases h2 : assertNoDuplicateIds "jobs" []
      ((arrField doc "jobs").map (strField · "id")) with e | u
  · simp only [h2, reduceCtorEq] at h
  cases u
  simp only [h2] at h
  rcases h3 : assertNoDuplicateIds "workEntries" []
      ((arrField doc "workEntries").map (strField · "id")) with e | u
  · simp only [h3, reduceCtorEq] at h
  cases u
  simp only [h3] at h
  rcases h4 : assertNoDuplicateIds "expenses" []
      ((arrField doc "expenses").map (strField · "id")) with e | u
  · simp only [h4, reduceCtorEq] at h
  cases u
  simp only [h4] at h
  rcases h5 : assertReferentialIntegrity doc with e | u
  · simp only [h5, reduceCtorEq] at h
  cases u
  simp only [h5] at h
  rcases h6 : assertTotalsConsistency parse doc with e | u
  · simp only [h6, reduceCtorEq] at h
  cases u
  simp only [h6] at h
  injection h with h7
  exact ⟨rfl, rfl, rfl, rfl, rfl, rfl, h7.symm⟩

theorem importFullBackup_error_of_validate (parse : String → Option Int)
    (doc : JSValue) (store : Store) (e : ImportError)
    (h : validateBackup parse doc = .error e) :
    importFullBackup parse doc store = .error e := by
  unfold importFullBackup
  rw [h]

theorem importFullBackup_error_of_totals (parse : String → Option Int)
    (doc : JSValue) (store : Store) (e : ImportError)
    (h1 : validateBackup parse doc = .ok ())
    (h2 : assertNoDuplicateIds "jobs" [] ((arrField doc "jobs").map (strField · "id")) = .ok ())
    (h3 : assertNoDuplicateIds "workEntries" []
      ((arrField doc "workEntries").map (strField · "id")) = .ok ())
    (h4 : assertNoDuplicateIds "expenses" []
      ((arrField doc "expenses").map (strField · "id")) = .ok ())
    (h5 : assertReferentialIntegrity doc = .ok ())
    (h6 : assertTotalsConsistency parse doc = .error e) :
    importFullBackup parse doc store = .error e := by
  unfold importFullBackup
  rw [h1, h2, h3, h4, h5, h6]

theorem storeAfterImport_of_error (parse : String → Option Int)
    (doc : JSValue) (store : Store) (e : ImportError)
    (h : importFullBackup parse doc store = .error e) :
    storeAfterImport parse doc store = store := by
  unfold storeAfterImport
  rw [h]

theorem mem_keys_of_lookup (k : String) (v : JSValue) :
    ∀ fs : List (String × JSValue), fs.lookup k = some v → k ∈ fs.map Prod.fst := by
  intro fs
  induction fs with
  | nil => intro h; simp [List.lookup] at h
  | cons kv rest ih =>
    obtain ⟨k', v'⟩ := kv
    intro h
    by_cases hb : (k == k') = true
    · simp only [List.map_cons, List.mem_cons]
      exact Or.inl (by simpa using hb)
    · simp only [List.lookup, Bool.not_eq_true] at h hb
      rw [hb] at h
      simp only [List.map_cons, List.mem_cons]
      exact Or.inr (ih h)

theorem checkVersion_error (v : Option JSValue)
    (hv : v ≠ some (.num (.finite 1))) :
    checkVersion v = .error (.badVersion v) := by
  rcases v with - | w
  · rfl
  · cases w with
    | num n =>
      cases n with
      | finite q =>
        have hq : q ≠ 1 := fun h => hv (by rw [h])
        simp [checkVersion, hq]
      | nan => rfl
      | posInf => rfl
      | negInf => rfl
    | null => rfl
    | bool b => rfl
    | str s => rfl
    | date ms => rfl
    | arr xs => rfl
    | obj fs => rfl

-- ---------------------------------------------------------------------------
-- C1 — failed validation leaves the store untouched
-- ---------------------------------------------------------------------------

/-- C1: whenever any validation step of the import pipeline fails —
top-level shape / per-record validation (`validateBackup`), duplicate-id
detection, referential integrity, or totals consistency — `importFullBackup`
raises an error and performs no write: the store's jobs, workEntries and
expenses are exactly as before the failed call. -/
theorem c1_import_atomic (parse : String → Option Int) (doc : JSValue) (store : Store)
    (hfail : validateBackup parse doc ≠ .ok () ∨
      assertNoDuplicateIds "jobs" [] ((arrField doc "jobs").map (strField · "id")) ≠ .ok () ∨
      assertNoDuplicateIds "workEntries" []
        ((arrField doc "workEntries").map (strField · "id")) ≠ .ok () ∨
      assertNoDuplicateIds "expenses" []
        ((arrField doc "expenses").map (strField · "id")) ≠ .ok () ∨
      assertReferentialIntegrity doc ≠ .ok () ∨
      assertTotalsConsistency parse doc ≠ .ok ()) :
    (∃ e, importFullBackup parse doc store = .error e) ∧
      storeAfterImport parse doc store = store := by
  rcases himp : importFullBackup parse doc store with e | s'
  · exact ⟨⟨e, rfl⟩, storeAfterImport_of_error parse doc store e himp⟩
  · exfalso
    obtain ⟨k1, k2, k3, k4, k5, k6, -⟩ := importFullBackup_ok_dest parse doc store s' himp
    rcases hfail with hf | hf | hf | hf | hf | hf <;> exact absurd (by assumption) hf

/-- Witness for C1: a non-object document against a non-empty store. -/
theorem c1_import_atomic_witness :
    (∃ e, importFullBackup toyParse .null sampleStore = .error e) ∧
      storeAfterImport toyParse .null sampleStore = sampleStore :=
  c1_import_atomic toyParse .null sampleStore
    (Or.inl (by
      have h : validateBackup toyParse JSValue.null = .error .notAnObject := rfl
      rw [h]
      exact fun hcontra => Except.noConfusion hcontra))

-- ---------------------------------------------------------------------------
-- C6 — version must be exactly 1
-- ---------------------------------------------------------------------------

/-- C6: on any document (object) whose top-level `version` is not exactly
the number 1 — including an absent field — import fails with a version
error naming the offending value, and the store is untouched. -/
theorem c6_version_must_be_1 (parse : String → Option Int)
    (doc : JSValue) (store : Store) (fields : List (String × JSValue))
    (hobj : doc = .obj fields)
    (hv : doc.getField "version" ≠ some (.num (.finite 1))) :
    importFullBackup parse doc store = .error (.badVersion (doc.getField "version")) ∧
      storeAfterImport parse doc store = store := by
  have hval : validateBackup parse doc = .error (.badVersion (doc.getField "version")) := by
    subst hobj
    unfold validateBackup
    exact andThen_error_left _ _ _ (checkVersion_error _ hv)
  have himp := importFullBackup_error_of_validate parse doc store _ hval
  exact ⟨himp, storeAfterImport_of_error parse doc store _ himp⟩

/-- Witness for C6: a document with `version: 2` is rejected with a
version error naming 2, leaving a non-empty store untouched. -/
theorem c6_version_must_be_1_witness :
    importFullBackup toyParse sampleDocVersion2 sampleStore =
      .error (.badVersion (some (.num (.finite 2)))) ∧
      storeAfterImport toyParse sampleDocVersion2 sampleStore = sampleStore := by
  have hv : sampleDocVersion2.getField "version" ≠ some (.num (.finite 1)) := by
    have hg : sampleDocVersion2.getField "version" = some (.num (.finite 2)) := rfl
    rw [hg]
    intro hcontra
    simp only [Option.some.injEq, JSValue.num.injEq, JSNum.finite.injEq] at hcontra
    norm_num at hcontra
  exact c6_version_must_be_1 toyParse sampleDocVersion2 sampleStore
    [("version", .num (.finite 2)), ("exportedAt", .str "p"), ("jobs", .arr []),
     ("workEntries", .arr []), ("expenses", .arr [])] rfl hv

-- ---------------------------------------------------------------------------
-- C7 — empty required strings are (incorrectly) accepted: code bug
-- ---------------------------------------------------------------------------

/-- C7 (against the claim — code bug): a document in which `jobs[0].name`
and `expenses[0].category` are the empty string passes the whole import,
because `assertNonEmptyString`, despite its name and doc comment, never
checks emptiness.  The claim (and the function's own documentation) say
such a document must be rejected. -/
theorem c7_emptyString_accepted :
    (sampleJob.setField "name" (.str "")).getField "name" = some (.str "") ∧
    (sampleExpense.setField "category" (.str "")).getField "category" = some (.str "") ∧
    ∃ s', importFullBackup toyParse sampleDocEmptyStrings sampleStore = .ok s' := by
  refine ⟨rfl, rfl,
    ⟨{ jobs := [(sampleJob.setField "name" (.str "")).setField "createdAt" (.date (some 0))],
       workEntries := [sampleEntry.setField "createdAt" (.date (some 0))],
       expenses := [(sampleExpense.setField "category" (.str "")).setField "createdAt"
         (.date (some 0))] }, ?_⟩⟩
  with_unfolding_all rfl

-- ---------------------------------------------------------------------------
-- C10 — imported records keep exactly their document fields
-- ---------------------------------------------------------------------------

/-- C10: every record of an accepted document is written to the store with
exactly the fields it had in the document — any field other than
`createdAt` (validated or not, known or unknown) is preserved unchanged,
the key list is preserved, and `createdAt` is the only modified field,
converted from its validated string form to a `Date` denoting the instant
the parse environment assigns to that string. -/
theorem c10_import_frame (parse : String → Option Int)
    (doc : JSValue) (store s' : Store)
    (h : importFullBackup parse doc store = .ok s') :
    (s'.jobs = (arrField doc "jobs").map (rehydrateRecord parse) ∧
     s'.workEntries = (arrField doc "workEntries").map (rehydrateRecord parse) ∧
     s'.expenses = (arrField doc "expenses").map (rehydrateRecord parse)) ∧
    (∀ (r : JSValue) (k : String), k ≠ "createdAt" →
       (rehydrateRecord parse r).getField k = r.getField k) ∧
    (∀ (r : JSValue) (s : String), r.getField "createdAt" = some (.str s) →
       (rehydrateRecord parse r).getField "createdAt" = some (.date (parse s)) ∧
       (rehydrateRecord parse r).keys = r.keys) := by
  obtain ⟨-, -, -, -, -, -, hs⟩ := importFullBackup_ok_dest parse doc store s' h
  refine ⟨by rw [hs]; exact ⟨rfl, rfl, rfl⟩, ?_, ?_⟩
  · intro r k hk
    unfold rehydrateRecord
    rcases hcr : r.getField "createdAt" with - | w
    · exact getField_setField_ne r _ k _ hk
    · cases w <;> exact getField_setField_ne r _ k _ hk
  · intro r s hcr
    obtain ⟨fs, rfl⟩ : ∃ fs, r = .obj fs := by
      cases r <;> simp [JSValue.getField] at hcr ⊢
    have hmem : "createdAt" ∈ fs.map Prod.fst :=
      mem_keys_of_lookup _ _ fs (by simpa [JSValue.getField] using hcr)
    unfold rehydrateRecord
    rw [hcr]
    refine ⟨getField_setField_self fs _ _, ?_⟩
    show ((JSValue.obj fs).setField "createdAt" (.date (parse s))).keys =
      (JSValue.obj fs).keys
    simp only [JSValue.setField, JSValue.keys]
    exact keys_setFields_of_mem _ _ fs hmem

/-- Witness for C10 at the concrete valid document. -/
theorem c10_import_frame_witness :
    sampleImported.jobs = (arrField sampleDoc "jobs").map (rehydrateRecord toyParse) :=
  ((c10_import_frame toyParse sampleDoc sampleStore sampleImported
    (by with_unfolding_all rfl)).1).1

-- ---------------------------------------------------------------------------
-- C5 — referential integrity against the in-document id sets
-- ---------------------------------------------------------------------------

/-- C5: any document containing a WorkEntry whose `jobId` matches no
in-document Job id, or an Expense whose `workEntryId` matches no
in-document WorkEntry id, is rejected with an error before any write —
for every prior store content (the check never consults the live store). -/
theorem c5_referential_integrity (parse : String → Option Int)
    (doc : JSValue) (store : Store) (hdangling : hasDanglingRef doc) :
    (∃ e, importFullBackup parse doc store = .error e) ∧
      storeAfterImport parse doc store = store := by
  rcases himp : importFullBackup parse doc store with e | s'
  · exact ⟨⟨e, rfl⟩, storeAfterImport_of_error parse doc store e himp⟩
  · exfalso
    obtain ⟨-, -, -, -, href, -, -⟩ := importFullBackup_ok_dest parse doc store s' himp
    unfold assertReferentialIntegrity at href
    rw [andThen_ok_iff] at href
    obtain ⟨h1, h2⟩ := href
    rw [validateList_ok_iff] at h1
    rw [validateList_ok_iff] at h2
    rcases hdangling with ⟨r, hr, hnotmem⟩ | ⟨r, hr, hnotmem⟩
    · obtain ⟨⟨j, hj⟩, hget⟩ := List.mem_iff_get.mp hr
      subst hget
      have hcheck := h1 j hj
      by_cases hc : strField ((arrField doc "workEntries").get ⟨j, hj⟩) "jobId" ∈
          (arrField doc "jobs").map (strField · "id")
      · exact hnotmem hc
      · rw [if_neg hc] at hcheck
        exact Except.noConfusion hcheck
    · obtain ⟨⟨j, hj⟩, hget⟩ := List.mem_iff_get.mp hr
      subst hget
      have hcheck := h2 j hj
      by_cases hc : strField ((arrField doc "expenses").get ⟨j, hj⟩) "workEntryId" ∈
          (arrField doc "workEntries").map (strField · "id")
      · exact hnotmem hc
      · rw [if_neg hc] at hcheck
        exact Except.noConfusion hcheck

/-- Witness for C5: a document whose only WorkEntry references job id
`"j1"` while the document's Jobs array is empty. -/
theorem c5_referential_integrity_witness :
    (∃ e, importFullBackup toyParse sampleDocDangling sampleStore = .error e) ∧
      storeAfterImport toyParse sampleDocDangling sampleStore = sampleStore :=
  c5_referential_integrity toyParse sampleDocDangling sampleStore
    (Or.inl ⟨sampleEntry,
      by
        rw [show arrField sampleDocDangling "workEntries" = [sampleEntry] from rfl]
        exact List.mem_singleton.mpr rfl,
      by
        rw [show (arrField sampleDocDangling "jobs").map (strField · "id") = [] from rfl]
        exact List.not_mem_nil _⟩)

-- ---------------------------------------------------------------------------
-- C2 support: membership-test loops and mutation transfer
-- ---------------------------------------------------------------------------

theorem validateList_ite_ok_dest (p : JSValue → Prop) [DecidablePred p]
    (err : JSValue → Nat → ImportError) (xs : List JSValue) (i0 : Nat)
    (h : validateList (fun r i => if p r then .ok () else .error (err r i)) xs i0 = .ok ()) :
    ∀ j (hj : j < xs.length), p (xs.get ⟨j, hj⟩) := by
  rw [validateList_ok_iff] at h
  intro j hj
  have hc := h j hj
  by_cases hp : p (xs.get ⟨j, hj⟩)
  · exact hp
  · rw [if_neg hp] at hc
    exact Except.noConfusion hc

theorem validateList_ite_ok_intro (p : JSValue → Prop) [DecidablePred p]
    (err : JSValue → Nat → ImportError) (xs : List JSValue) (i0 : Nat)
    (h : ∀ j (hj : j < xs.length), p (xs.get ⟨j, hj⟩)) :
    validateList (fun r i => if p r then .ok () else .error (err r i)) xs i0 = .ok () := by
  rw [validateList_ok_iff]
  intro j hj
  rw [if_pos (h j hj)]

theorem validateWorkEntry_addCent (parse : String → Option Int)
    (r : JSValue) (i j : Nat) (h : validateWorkEntry parse r i = .ok ()) :
    validateWorkEntry parse (addCentToGrand r) j = .ok () := by
  rw [validateWorkEntry_ok_iff] at h
  rw [validateWorkEntry_ok_iff]
  obtain ⟨h0, h1, h2, h3, h4, h5, h6, h7, h8, h9, h10, h11, h12, g0, h13⟩ := h
  have t : ∀ k : String, k ≠ "grandTotal" →
      (addCentToGrand r).getField k = r.getField k :=
    fun k hk => addCent_getField_ne r k hk
  exact ⟨by rw [addCent_isObjectLike]; exact h0,
    by rw [t "id" (by decide)]; exact h1,
    by rw [t "jobId" (by decide)]; exact h2,
    by rw [t "date" (by decide)]; exact h3,
    by rw [t "startTime" (by decide)]; exact h4,
    by rw [t "endTime" (by decide)]; exact h5,
    by rw [t "createdAt" (by decide)]; exact h6,
    by rw [t "hourlyRateUsed" (by decide)]; exact h7,
    by rw [t "kilometers" (by decide)]; exact h8,
    by rw [t "kmRateUsed" (by decide)]; exact h9,
    by rw [t "laborTotal" (by decide)]; exact h10,
    by rw [t "kmTotal" (by decide)]; exact h11,
    by rw [t "expensesTotal" (by decide)]; exact h12,
    ⟨g0 + 1/100, addCent_getField_grand r g0 h13⟩⟩

-- ---------------------------------------------------------------------------
-- C2 — totals consistency gates the import, and a 0.01 mutation is caught
-- ---------------------------------------------------------------------------

/-- C2: a successful `importFullBackup` implies that every WorkEntry's
stored `laborTotal`, `kmTotal`, `expensesTotal` and `grandTotal` equal
(after rounding both sides to 2 decimals) the values recomputed by the
Calculation module from `startTime`, `endTime`, `hourlyRateUsed`,
`kilometers`, `kmRateUsed` and the rounded sum of the matching in-document
Expense amounts; and adding 0.01 to any one WorkEntry's `grandTotal` in an
otherwise-importable document makes import fail with a totals-mismatch
error naming that record index, the `grandTotal` field, the mutated stored
value and the recomputed value. -/
theorem c2_totals_consistency (parse : String → Option Int)
    (doc : JSValue) (store s' : Store)
    (himp : importFullBackup parse doc store = .ok s') :
    (∀ i (hi : i < (arrField doc "workEntries").length),
      ∃ d l k g,
        calculateDurationInHours parse
          (strField ((arrField doc "workEntries").get ⟨i, hi⟩) "startTime")
          (strField ((arrField doc "workEntries").get ⟨i, hi⟩) "endTime") = .ok d ∧
        calculateLaborTotal d
          (numField ((arrField doc "workEntries").get ⟨i, hi⟩) "hourlyRateUsed") = .ok l ∧
        calculateKmTotal
          (numField ((arrField doc "workEntries").get ⟨i, hi⟩) "kilometers")
          (numField ((arrField doc "workEntries").get ⟨i, hi⟩) "kmRateUsed") = .ok k ∧
        calculateGrandTotal l k
          (round2 (expenseSum (arrField doc "expenses")
            (strField ((arrField doc "workEntries").get ⟨i, hi⟩) "id"))) = .ok g ∧
        round2 (numField ((arrField doc "workEntries").get ⟨i, hi⟩) "laborTotal") =
          round2 l ∧
        round2 (numField ((arrField doc "workEntries").get ⟨i, hi⟩) "kmTotal") =
          round2 k ∧
        round2 (numField ((arrField doc "workEntries").get ⟨i, hi⟩) "expensesTotal") =
          round2 (round2 (expenseSum (arrField doc "expenses")
            (strField ((arrField doc "workEntries").get ⟨i, hi⟩) "id"))) ∧
        round2 (numField ((arrField doc "workEntries").get ⟨i, hi⟩) "grandTotal") =
          round2 g) ∧
    (∀ i (hi : i < (arrField doc "workEntries").length),
      ∃ g0 g,
        ((arrField doc "workEntries").get ⟨i, hi⟩).getField "grandTotal" =
          some (.num (.finite g0)) ∧
        importFullBackup parse (mutateGrand doc i) store =
          .error (.totalsMismatch i "grandTotal" (g0 + 1/100) g)) := by
  obtain ⟨hval, hd1, hd2, hd3, href, htot, -⟩ :=
    importFullBackup_ok_dest parse doc store s' himp
  have htotL : ∀ j (hj : j < (arrField doc "workEntries").length),
      checkEntryTotals parse (arrField doc "expenses")
        ((arrField doc "workEntries").get ⟨j, hj⟩) (0 + j) = .ok () := by
    unfold assertTotalsConsistency at htot
    rw [validateList_ok_iff] at htot
    exact htot
  constructor
  · intro i hi
    have h := htotL i hi
    rw [Nat.zero_add] at h
    exact checkEntryTotals_ok_dest parse _ _ i h
  · intro i hi
    -- names for the document pieces
    have hv := hval
    rw [validateBackup_ok_iff] at hv
    obtain ⟨hobj, hver, hexp, ⟨jxs, hjobs⟩, ⟨wxs, hwes⟩, ⟨exs, hexps⟩, hvj, hvw, hve⟩ := hv
    obtain ⟨dfs, rfl⟩ : ∃ dfs, doc = .obj dfs := by
      cases doc <;> simp [JSValue.getField] at hver ⊢
    -- the record at index i and its stored grandTotal
    have hvwi : validateWorkEntry parse
        ((arrField (JSValue.obj dfs) "workEntries").get ⟨i, hi⟩) i = .ok () := by
      rw [validateList_ok_iff] at hvw
      have := hvw i hi
      rwa [Nat.zero_add] at this
    have hgrand : ∃ g0,
        ((arrField (JSValue.obj dfs) "workEntries").get ⟨i, hi⟩).getField "grandTotal" =
          some (.num (.finite g0)) := by
      rw [validateWorkEntry_ok_iff] at hvwi
      exact hvwi.2.2.2.2.2.2.2.2.2.2.2.2.2
    obtain ⟨g0, hg0⟩ := hgrand
    -- the mutated document and its field structure
    have hget_ne : ∀ k : String, k ≠ "workEntries" →
        (mutateGrand (JSValue.obj dfs) i).getField k =
          (JSValue.obj dfs).getField k := by
      intro k hk
      unfold mutateGrand
      exact getField_setField_ne _ _ k _ hk
    have hget_we : (mutateGrand (JSValue.obj dfs) i).getField "workEntries" =
        some (.arr (modifyAt addCentToGrand i (arrField (JSValue.obj dfs) "workEntries"))) := by
      unfold mutateGrand
      exact getField_setField_self dfs _ _
    have harr_jobs : arrField (mutateGrand (JSValue.obj dfs) i) "jobs" =
        arrField (JSValue.obj dfs) "jobs" := by
      unfold arrField
      rw [hget_ne "jobs" (by decide)]
    have harr_exps : arrField (mutateGrand (JSValue.obj dfs) i) "expenses" =
        arrField (JSValue.obj dfs) "expenses" := by
      unfold arrField
      rw [hget_ne "expenses" (by decide)]
    have harr_wes : arrField (mutateGrand (JSValue.obj dfs) i) "workEntries" =
        modifyAt addCentToGrand i (arrField (JSValue.obj dfs) "workEntries") := by
      unfold arrField
      rw [hget_we]
      rfl
    have hlen' : (modifyAt addCentToGrand i
        (arrField (JSValue.obj dfs) "workEntries")).length =
        (arrField (JSValue.obj dfs) "workEntries").length :=
      length_modifyAt _ _ _
    -- ids of the mutated workEntries are unchanged
    have hids : (modifyAt addCentToGrand i
          (arrField (JSValue.obj dfs) "workEntries")).map (strField · "id") =
        (arrField (JSValue.obj dfs) "workEntries").map (strField · "id") :=
      map_modifyAt_eq _ _ (fun x => addCent_strField_ne x "id" (by decide)) _ _
    -- 1. the mutated document passes validateBackup
    have hval' : validateBackup parse (mutateGrand (JSValue.obj dfs) i) = .ok () := by
      rw [validateBackup_ok_iff]
      refine ⟨rfl, ?_, ?_, ?_, ?_, ?_, ?_, ?_, ?_⟩
      · rw [hget_ne "version" (by decide)]; exact hver
      · rw [hget_ne "exportedAt" (by decide)]; exact hexp
      · rw [hget_ne "jobs" (by decide)]; exact ⟨jxs, hjobs⟩
      · exact ⟨_, hget_we⟩
      · rw [hget_ne "expenses" (by decide)]; exact ⟨exs, hexps⟩
      · rw [harr_jobs]; exact hvj
      · rw [harr_wes, validateList_ok_iff]
        intro j hj
        have hj0 : j < (arrField (JSValue.obj dfs) "workEntries").length := by
          rw [← hlen']; exact hj
        by_cases hji : j = i
        · subst hji
          have hg := get_modifyAt_self addCentToGrand j
            (arrField (JSValue.obj dfs) "workEntries") hj0
          rw [show (⟨j, hj⟩ : Fin _) = ⟨j, by rw [hlen']; exact hj0⟩ from rfl, hg]
          exact validateWorkEntry_addCent parse _ j _
            (by
              rw [validateList_ok_iff] at hvw
              have := hvw j hj0
              rwa [Nat.zero_add] at this)
        · have hg := get_modifyAt_ne addCentToGrand i j
            (arrField (JSValue.obj dfs) "workEntries") hj0 hji
          rw [show (⟨j, hj⟩ : Fin _) = ⟨j, by rw [hlen']; exact hj0⟩ from rfl, hg]
          rw [validateList_ok_iff] at hvw
          exact hvw j hj0
      · rw [harr_exps]; exact hve
    -- 2. duplicate-id checks still pass
    have hd1' : assertNoDuplicateIds "jobs" []
        ((arrField (mutateGrand (JSValue.obj dfs) i) "jobs").map (strField · "id")) = .ok () := by
      rw [harr_jobs]; exact hd1
    have hd2' : assertNoDuplicateIds "workEntries" []
        ((arrField (mutateGrand (JSValue.obj dfs) i) "workEntries").map (strField · "id")) =
        .ok () := by
      rw [harr_wes, hids]; exact hd2
    have hd3' : assertNoDuplicateIds "expenses" []
        ((arrField (mutateGrand (JSValue.obj dfs) i) "expenses").map (strField · "id")) =
        .ok () := by
      rw [harr_exps]; exact hd3
    -- 3. referential integrity still passes
    have href' : assertReferentialIntegrity (mutateGrand (JSValue.obj dfs) i) = .ok () := by
      unfold assertReferentialIntegrity at href ⊢
      rw [andThen_ok_iff] at href
      obtain ⟨hr1, hr2⟩ := href
      rw [andThen_ok_iff]
      constructor
      · rw [harr_jobs, harr_wes]
        have hr1' := validateList_ite_ok_dest _ _ _ _ hr1
        apply validateList_ite_ok_intro
        intro j hj
        have hj0 : j < (arrField (JSValue.obj dfs) "workEntries").length := by
          rw [← hlen']; exact hj
        by_cases hji : j = i
        · subst hji
          have hg := get_modifyAt_self addCentToGrand j
            (arrField (JSValue.obj dfs) "workEntries") hj0
          rw [show (⟨j, hj⟩ : Fin _) = ⟨j, by rw [hlen']; exact hj0⟩ from rfl, hg,
            addCent_strField_ne _ "jobId" (by decide)]
          exact hr1' j hj0
        · have hg := get_modifyAt_ne addCentToGrand i j
            (arrField (JSValue.obj dfs) "workEntries") hj0 hji
          rw [show (⟨j, hj⟩ : Fin _) = ⟨j, by rw [hlen']; exact hj0⟩ from rfl, hg]
          exact hr1' j hj0
      · rw [harr_exps, harr_wes, hids]
        exact hr2
    -- 4. the totals check fails at record i with a grandTotal mismatch
    have hoki : checkEntryTotals parse (arrField (JSValue.obj dfs) "expenses")
        ((arrField (JSValue.obj dfs) "workEntries").get ⟨i, hi⟩) i = .ok () := by
      have := htotL i hi
      rwa [Nat.zero_add] at this
    obtain ⟨g, hmut⟩ := checkEntryTotals_addCent parse _ _ i g0 hoki hg0
    have htot' : assertTotalsConsistency parse (mutateGrand (JSValue.obj dfs) i) =
        .error (.totalsMismatch i "grandTotal" (g0 + 1/100) g) := by
      unfold assertTotalsConsistency
      rw [harr_exps, harr_wes]
      have hi' : i < (modifyAt addCentToGrand i
          (arrField (JSValue.obj dfs) "workEntries")).length := by
        rw [hlen']; exact hi
      apply validateList_error_at _ _ _ 0 i hi'
      · intro j hj
        have hj0 : j < (arrField (JSValue.obj dfs) "workEntries").length := by
          rw [← hlen']; exact hj.trans hi'
        have hg := get_modifyAt_ne addCentToGrand i j
          (arrField (JSValue.obj dfs) "workEntries") hj0 (Nat.ne_of_lt hj)
        rw [show (⟨j, Nat.lt_trans hj hi'⟩ : Fin _) = ⟨j, by rw [hlen']; exact hj0⟩ from rfl,
          hg]
        have := htotL j hj0
        exact this
      · have hg := get_modifyAt_self addCentToGrand i
          (arrField (JSValue.obj dfs) "workEntries") hi
        rw [show (⟨i, hi'⟩ : Fin _) = ⟨i, by rw [hlen']; exact hi⟩ from rfl, hg,
          Nat.zero_add]
        exact hmut
    exact ⟨g0, g, hg0,
      importFullBackup_error_of_totals parse _ store _ hval' hd1' hd2' hd3' href' htot'⟩

/-- Witness for C2 at the concrete valid document: mutating
`workEntries[0].grandTotal` by +0.01 makes import fail naming record 0. -/
theorem c2_totals_consistency_witness :
    ∃ g0 g,
      ((arrField sampleDoc "workEntries").get
          ⟨0, by rw [show arrField sampleDoc "workEntries" = [sampleEntry] from rfl]; decide⟩).getField
        "grandTotal" = some (.num (.finite g0)) ∧
      importFullBackup toyParse (mutateGrand sampleDoc 0) sampleStore =
        .error (.totalsMismatch 0 "grandTotal" (g0 + 1/100) g) :=
  (c2_totals_consistency toyParse sampleDoc sampleStore sampleImported
    (by with_unfolding_all rfl)).2 0
    (by rw [show arrField sampleDoc "workEntries" = [sampleEntry] from rfl]; decide)

-- ---------------------------------------------------------------------------
-- C8 — export → import → export round trip
-- ---------------------------------------------------------------------------

theorem serialize_roundtrip_list (format : Int → String) (parse : String → Option Int)
    (hrt : ∀ ms : Int, parse (format ms) = some ms) (rs : List JSValue)
    (h : ∀ r ∈ rs, ∃ ms : Int, r.getField "createdAt" = some (.date (some ms))) :
    ((rs.map (serializeValue format)).map (rehydrateRecord parse)).map
      (serializeValue format) = rs.map (serializeValue format) := by
  induction rs with
  | nil => rfl
  | cons r rs ih =>
    simp only [List.map_cons, List.cons.injEq]
    obtain ⟨ms, hms⟩ := h r (List.mem_cons_self r rs)
    exact ⟨serialize_rehydrate_serialize format parse hrt r ms hms,
      ih (fun x hx => h x (List.mem_cons_of_mem r hx))⟩

/-- C8: for every store whose records carry valid `Date`s in `createdAt`
(the invariant of the TypeScript record types) and a timestamp codec that
round-trips, exporting, importing the exported document, and exporting
again yields `jobs`, `workEntries` and `expenses` arrays identical to the
first export's arrays, whatever the two `exportedAt` stamps are — whether
the import succeeds (it then restores exactly the prior records) or fails
(it then leaves the store untouched). -/
theorem c8_export_import_export (parse : String → Option Int)
    (format : Int → String) (store : Store) (now1 now2 : Int)
    (hrt : ∀ ms : Int, parse (format ms) = some ms)
    (hwf : StoreWF store) :
    backupArrays (exportFullBackup format now2
        (storeAfterImport parse (exportFullBackup format now1 store) store)) =
      backupArrays (exportFullBackup format now1 store) := by
  have harr : ∀ (now : Int) (st : Store),
      backupArrays (exportFullBackup format now st) =
        (serializeList format st.jobs, serializeList format st.workEntries,
         serializeList format st.expenses) := fun now st => rfl
  rcases himp : importFullBackup parse (exportFullBackup format now1 store) store
    with e | s2
  · rw [storeAfterImport_of_error _ _ _ _ himp, harr, harr]
  · have hafter : storeAfterImport parse (exportFullBackup format now1 store) store = s2 := by
      unfold storeAfterImport
      rw [himp]
    rw [hafter]
    obtain ⟨-, -, -, -, -, -, hs2⟩ :=
      importFullBackup_ok_dest _ _ _ _ himp
    have hj : arrField (exportFullBackup format now1 store) "jobs" =
        serializeList format store.jobs := rfl
    have hw : arrField (exportFullBackup format now1 store) "workEntries" =
        serializeList format store.workEntries := rfl
    have he : arrField (exportFullBackup format now1 store) "expenses" =
        serializeList format store.expenses := rfl
    rw [harr, harr, hs2, hj, hw, he]
    simp only [serializeList_eq_map, Prod.mk.injEq]
    refine ⟨?_, ?_, ?_⟩
    · exact serialize_roundtrip_list format parse hrt store.jobs
        (fun r hr => hwf r (by simp [hr]))
    · exact serialize_roundtrip_list format parse hrt store.workEntries
        (fun r hr => hwf r (by simp [hr]))
    · exact serialize_roundtrip_list format parse hrt store.expenses
        (fun r hr => hwf r (by simp [hr]))

/-- Witness for C8: the toy codec and a one-job store. -/
theorem c8_export_import_export_witness :
    backupArrays (exportFullBackup toyFormat 1
        (storeAfterImport toyParse (exportFullBackup toyFormat 0 sampleStore) sampleStore)) =
      backupArrays (exportFullBackup toyFormat 0 sampleStore) :=
  c8_export_import_export toyParse toyFormat sampleStore 0 1
    (fun ms => by
      cases ms with
      | ofNat n => simp [toyFormat, toyParse, String.mk]
      | negSucc n => simp [toyFormat, toyParse, String.mk])
    (fun r hr => by
      rw [show sampleStore.jobs ++ sampleStore.workEntries ++ sampleStore.expenses =
        [JSValue.obj [("id", .str "old-job"), ("createdAt", .date (some 7))]] from rfl] at hr
      rw [List.mem_singleton] at hr
      subst hr
      exact ⟨7, rfl⟩)

end Remeslnici
